import Mathlib

/-!
Verification of `src/06-objects-tasks.js` (core-js-101): a CSS selector
builder (`MyCssSelector` / `cssSelectorBuilder`), a `Rectangle` constructor
and the JSON helpers `getJSON` / `fromJSON`.

Modelling conventions, stated once:

* JS strings are modelled as Lean `String`.  A field that is `undefined`
  until first assignment is modelled as `Option String` (`none` =
  `undefined`).  JS truthiness of such a field (`this.myElement`, and the
  `this[item] && this[item].length` test) is `truthyOpt` below: `undefined`
  and the empty string are falsy, every non-empty string is truthy; an
  array is truthy and `arr.length` is non-zero exactly when the list is
  non-empty.
* `String.prototype.trim` is modelled by `jsTrim`, which strips the
  characters of the ECMAScript `WhiteSpace` and `LineTerminator`
  productions from both ends (`isJsWs`).
* The two `throw new Error(...)` sites use two fixed message strings; the
  spec names them `OrderViolation` (the "Selector parts should be arranged
  in the following order: ..." message) and `DuplicateFragment` (the
  "/Element, id and pseudo-element should not occur more then one time
  inside the selector/" message).  They are modelled by the enumeration
  `SelErr`.
* A method body is modelled as a function returning
  `Except SelErr Unit × State`: the first component is the outcome (the JS
  method returns `this` on success and throws otherwise), the second is the
  state of the receiver after the call, whether or not it threw.  The JS
  code mutates `this` in place; the returned state records those writes.
* The `order` array is assigned the same literal list by the constructor on
  every instance and is never written afterwards, so it is modelled as the
  constant `order` below.
-/

/-! ### JS string helpers -/

/-- Characters removed by `String.prototype.trim`: ECMAScript `WhiteSpace`
(TAB, VT, FF, SP, NBSP, ZWNBSP and Unicode category Zs) and
`LineTerminator` (LF, CR, LS, PS). -/
def isJsWs (c : Char) : Bool :=
  c.toNat ∈ [0x9, 0xa, 0xb, 0xc, 0xd, 0x20, 0xa0, 0x1680,
    0x2000, 0x2001, 0x2002, 0x2003, 0x2004, 0x2005, 0x2006, 0x2007,
    0x2008, 0x2009, 0x200a, 0x2028, 0x2029, 0x202f, 0x205f, 0x3000, 0xfeff]

/-- Strip leading and trailing JS whitespace from a list of characters. -/
def trimChars (l : List Char) : List Char :=
  ((l.dropWhile isJsWs).reverse.dropWhile isJsWs).reverse

/-- Model of `String.prototype.trim`. -/
def jsTrim (s : String) : String :=
  ⟨trimChars s.data⟩

/-- JS truthiness of an optional-string field combined with the
`this[item] && this[item].length` test: `undefined` and `''` are falsy. -/
def truthyOpt : Option String → Bool
  | none => false
  | some s => if s = "" then false else true

/-! ### The selector fragment state (`MyCssSelector`'s per-kind fields)

`class MyCssSelector`'s constructor (source lines 118-125) initialises
`myClasses`, `myPseudoClasses` and `subBuilders` to empty arrays; the
fields `myElement`, `myId`, `myAttr`, `myPseudoElement` stay `undefined`
until a fragment method assigns them.  `Frag` collects the six fragment
fields; the `subBuilders` array lives in the node types further down. -/

/-- The two error conditions thrown by the builder (see the modelling note
above). -/
inductive SelErr where
  | orderViolation : SelErr
  | duplicateFragment : SelErr
deriving DecidableEq

/-- The names appearing in the instance field
`this.order = ['myElement', 'myId', 'myClasses', 'myAttr',
'myPseudoClasses', 'myPseudoElement']`. -/
inductive FieldName where
  | myElement : FieldName
  | myId : FieldName
  | myClasses : FieldName
  | myAttr : FieldName
  | myPseudoClasses : FieldName
  | myPseudoElement : FieldName
deriving DecidableEq, BEq, Fintype

/-- The derived Boolean equality on field names agrees with equality. -/
instance : LawfulBEq FieldName where
  eq_of_beq := by intro a b h; revert h; revert a b; decide
  rfl := by intro a; revert a; decide

/-- The constant value of `this.order` (source line 120). -/
def order : List FieldName :=
  [.myElement, .myId, .myClasses, .myAttr, .myPseudoClasses, .myPseudoElement]

/-- The six per-kind fragment fields of a `MyCssSelector` instance. -/
structure Frag where
  myElement : Option String
  myId : Option String
  myAttr : Option String
  myPseudoElement : Option String
  myClasses : List String
  myPseudoClasses : List String
deriving DecidableEq

/-- Equality of method outcomes is decidable (used by concrete
counterexample computations). -/
instance {ε α : Type} [DecidableEq ε] [DecidableEq α] : DecidableEq (Except ε α)
  | .ok a, .ok b =>
    if h : a = b then .isTrue (by rw [h]) else .isFalse (fun hh => h (by injection hh))
  | .ok _, .error _ => .isFalse (fun hh => Except.noConfusion hh)
  | .error _, .ok _ => .isFalse (fun hh => Except.noConfusion hh)
  | .error e, .error e2 =>
    if h : e = e2 then .isTrue (by rw [h]) else .isFalse (fun hh => h (by injection hh))

/-- The fragment fields as the constructor leaves them. -/
def Frag.empty : Frag :=
  ⟨none, none, none, none, [], []⟩

/-- The `this[item] && this[item].length` test of
`checkAfterElemsExist` for each field named in `order`: an optional string
is truthy with non-zero length iff it is a non-empty string; the two array
fields are truthy and have non-zero length iff non-empty. -/
def truthyField (f : Frag) : FieldName → Bool
  | .myElement => truthyOpt f.myElement
  | .myId => truthyOpt f.myId
  | .myClasses => !f.myClasses.isEmpty
  | .myAttr => truthyOpt f.myAttr
  | .myPseudoClasses => !f.myPseudoClasses.isEmpty
  | .myPseudoElement => truthyOpt f.myPseudoElement

/-- `checkAfterElemsExist(name)` (source lines 127-132): look at the
fields listed after `name` in `order`; the method throws (here: returns
`true`) iff `find` locates a truthy one.  (`find` returns the first
matching field *name*, a non-empty string, so the `if (found)` test is
equivalent to `find` succeeding.) -/
def checkAfterElemsExist (f : Frag) (name : FieldName) : Bool :=
  let idx := order.indexOf name
  let arr := order.drop (idx + 1)
  (arr.find? (fun item => truthyField f item)).isSome

namespace Frag

/-- `element(elem)` (source lines 139-144): order check, duplicate check,
then `this.myElement = elem`. -/
def element (f : Frag) (v : String) : Except SelErr Unit × Frag :=
  if checkAfterElemsExist f .myElement then (.error .orderViolation, f)
  else if truthyOpt f.myElement then (.error .duplicateFragment, f)
  else (.ok (), { f with myElement := some v })

/-- `id(val)` (source lines 150-155). -/
def id (f : Frag) (v : String) : Except SelErr Unit × Frag :=
  if checkAfterElemsExist f .myId then (.error .orderViolation, f)
  else if truthyOpt f.myId then (.error .duplicateFragment, f)
  else (.ok (), { f with myId := some v })

/-- `attr(val)` (source lines 161-165): order check only, then
`this.myAttr = val` (no duplicate check). -/
def attr (f : Frag) (v : String) : Except SelErr Unit × Frag :=
  if checkAfterElemsExist f .myAttr then (.error .orderViolation, f)
  else (.ok (), { f with myAttr := some v })

/-- `pseudoClass(val)` (source lines 171-175): order check, then push. -/
def pseudoClass (f : Frag) (v : String) : Except SelErr Unit × Frag :=
  if checkAfterElemsExist f .myPseudoClasses then (.error .orderViolation, f)
  else (.ok (), { f with myPseudoClasses := f.myPseudoClasses ++ [v] })

/-- `pseudoElement(val)` (source lines 181-185): duplicate check only
(the method performs no order check), then assignment. -/
def pseudoElement (f : Frag) (v : String) : Except SelErr Unit × Frag :=
  if truthyOpt f.myPseudoElement then (.error .duplicateFragment, f)
  else (.ok (), { f with myPseudoElement := some v })

/-- `class(val)` (source lines 191-195; `class` is a Lean keyword, hence
the name `addClass`): order check, then push. -/
def addClass (f : Frag) (v : String) : Except SelErr Unit × Frag :=
  if checkAfterElemsExist f .myClasses then (.error .orderViolation, f)
  else (.ok (), { f with myClasses := f.myClasses ++ [v] })

/-- `getElement()` (source lines 146-148): `this.myElement || ''`. -/
def getElement (f : Frag) : String :=
  match f.myElement with
  | none => ""
  | some s => s

/-- `getId()` (source lines 157-159). -/
def getId (f : Frag) : String :=
  match f.myId with
  | none => ""
  | some s => if s = "" then "" else "#" ++ s

/-- `getAttr()` (source lines 167-169). -/
def getAttr (f : Frag) : String :=
  match f.myAttr with
  | none => ""
  | some s => if s = "" then "" else "[" ++ s ++ "]"

/-- `getPseudoClass()` (source lines 177-179): a `reduce` prefixing each
pseudo-class with `:`. -/
def getPseudoClass (f : Frag) : String :=
  f.myPseudoClasses.foldl (fun acc cl => acc ++ ":" ++ cl) ""

/-- `getPseudoElement()` (source lines 187-189). -/
def getPseudoElement (f : Frag) : String :=
  match f.myPseudoElement with
  | none => ""
  | some s => if s = "" then "" else "::" ++ s

/-- `getClass()` (source lines 197-200): a `reduce` prefixing each class
with `.`. -/
def getClass (f : Frag) : String :=
  f.myClasses.foldl (fun acc cl => acc ++ "." ++ cl) ""

end Frag

/-- The simple-selector branch of `stringify()` (source line 210): the
concatenation of the six getters. -/
def simpleRender (f : Frag) : String :=
  f.getElement ++ f.getId ++ f.getClass ++ f.getAttr ++
    f.getPseudoClass ++ f.getPseudoElement


/-! ### The selector node (`MyCssSelector` objects, by value)

A `MyCssSelector` instance is its six fragment fields plus the
`subBuilders` array, whose entries are either selector objects or
combinator strings (`combine` pushes `selector1, combinator, selector2`,
source lines 134-137).  The array of mixed entries is encoded by the
inductive `SubBuilders` (isomorphic to a list of
`MyCssSelector ⊕ String`), mutually with the node type.  Nodes are
modelled *by value*: an entry of `subBuilders` is a copy of the child
node.  This matches the JS heap as long as no child is mutated after
being combined; the heap model for that aliasing question comes later in
the file. -/

mutual
inductive MyCssSelector where
  | mk : Frag → SubBuilders → MyCssSelector
inductive SubBuilders where
  | nil : SubBuilders
  | sel : MyCssSelector → SubBuilders → SubBuilders
  | comb : String → SubBuilders → SubBuilders
end

/-- The `arr.length === 0` test for a `subBuilders` array. -/
def SubBuilders.isNil : SubBuilders → Bool
  | .nil => true
  | _ => false

/-- Concatenation of `subBuilders` arrays (used to model `push`). -/
def SubBuilders.append : SubBuilders → SubBuilders → SubBuilders
  | .nil, t => t
  | .sel m rest, t => .sel m (rest.append t)
  | .comb s rest, t => .comb s (rest.append t)

/-- The fragment fields of a node. -/
def MyCssSelector.frag : MyCssSelector → Frag
  | .mk f _ => f

/-- The `subBuilders` array of a node. -/
def MyCssSelector.subBuilders : MyCssSelector → SubBuilders
  | .mk _ s => s

/-- `new MyCssSelector()` (source lines 119-125). -/
def MyCssSelector.new : MyCssSelector :=
  .mk Frag.empty .nil

/-- Lift a fragment-field method to a node: the `subBuilders` array is not
touched by any of the six fragment methods. -/
def liftFrag (g : Frag → String → Except SelErr Unit × Frag)
    (n : MyCssSelector) (v : String) : Except SelErr Unit × MyCssSelector :=
  match g n.frag v with
  | (res, f') => (res, .mk f' n.subBuilders)

namespace MyCssSelector

/-- Method `element` on a node. -/
def element : MyCssSelector → String → Except SelErr Unit × MyCssSelector :=
  liftFrag Frag.element

/-- Method `id` on a node. -/
def id : MyCssSelector → String → Except SelErr Unit × MyCssSelector :=
  liftFrag Frag.id

/-- Method `attr` on a node. -/
def attr : MyCssSelector → String → Except SelErr Unit × MyCssSelector :=
  liftFrag Frag.attr

/-- Method `pseudoClass` on a node. -/
def pseudoClass : MyCssSelector → String → Except SelErr Unit × MyCssSelector :=
  liftFrag Frag.pseudoClass

/-- Method `pseudoElement` on a node. -/
def pseudoElement : MyCssSelector → String → Except SelErr Unit × MyCssSelector :=
  liftFrag Frag.pseudoElement

/-- Method `class` on a node (Lean keyword, named `addClass`). -/
def addClass : MyCssSelector → String → Except SelErr Unit × MyCssSelector :=
  liftFrag Frag.addClass

/-- `combine(selector1, combinator, selector2)` (source lines 134-137):
pushes the three items onto the receiver's `subBuilders` and returns
`this`.  It never throws. -/
def combine (n : MyCssSelector) (s1 : MyCssSelector) (c : String)
    (s2 : MyCssSelector) : MyCssSelector :=
  .mk n.frag (n.subBuilders.append (.sel s1 (.comb c (.sel s2 .nil))))

end MyCssSelector

/-- One step of the `reduce` inside `stringify()` (source lines 204-207):
`` `${acc.length ? ` ${acc}` : ''} ${res}` ``. -/
def joinStep (acc res : String) : String :=
  (if acc = "" then "" else " " ++ acc) ++ " " ++ res

mutual
/-- `stringify()` (source lines 202-211).  With `subBuilders` non-empty
the method reduces the array with `joinStep` — the `|| ''` in the source
is the identity on every string the reduce can produce — and trims the
result; otherwise it concatenates the six getters. -/
def MyCssSelector.stringify : MyCssSelector → String
  | .mk f subs =>
    if subs.isNil then simpleRender f
    else jsTrim (foldSubs subs "")
/-- The `reduce` of source lines 204-207: `item instanceof MyCssSelector`
renders the item recursively, otherwise `item.toString()` is the
combinator string itself. -/
def foldSubs : SubBuilders → String → String
  | .nil, acc => acc
  | .sel m rest, acc => foldSubs rest (joinStep acc m.stringify)
  | .comb s rest, acc => foldSubs rest (joinStep acc s)
end

/-! ### The facade `cssSelectorBuilder` (source lines 214-242)

Each entry point allocates a fresh node and invokes one method on it.  The
fragment entry points are faithfully `Except`-valued even though on a
fresh node none of them can throw. -/

/-- Collapse the (outcome, state) pair of a method call on a fresh node
into the JS expression value `new MyCssSelector().m(val)`. -/
def callResult (p : Except SelErr Unit × MyCssSelector) :
    Except SelErr MyCssSelector :=
  match p with
  | (.ok _, n) => .ok n
  | (.error e, _) => .error e

namespace cssSelectorBuilder

/-- `cssSelectorBuilder.element(val)`. -/
def element (v : String) : Except SelErr MyCssSelector :=
  callResult (MyCssSelector.new.element v)

/-- `cssSelectorBuilder.id(val)`. -/
def id (v : String) : Except SelErr MyCssSelector :=
  callResult (MyCssSelector.new.id v)

/-- `cssSelectorBuilder.class(val)` (Lean keyword, named `addClass`). -/
def addClass (v : String) : Except SelErr MyCssSelector :=
  callResult (MyCssSelector.new.addClass v)

/-- `cssSelectorBuilder.attr(val)`. -/
def attr (v : String) : Except SelErr MyCssSelector :=
  callResult (MyCssSelector.new.attr v)

/-- `cssSelectorBuilder.pseudoClass(val)`. -/
def pseudoClass (v : String) : Except SelErr MyCssSelector :=
  callResult (MyCssSelector.new.pseudoClass v)

/-- `cssSelectorBuilder.pseudoElement(val)`. -/
def pseudoElement (v : String) : Except SelErr MyCssSelector :=
  callResult (MyCssSelector.new.pseudoElement v)

/-- `cssSelectorBuilder.combine(selector1, combinator, selector2)`. -/
def combine (s1 : MyCssSelector) (c : String) (s2 : MyCssSelector) :
    MyCssSelector :=
  MyCssSelector.new.combine s1 c s2

end cssSelectorBuilder

/-! ### The heap model (objects by reference)

`combine` stores the two argument *objects* in the receiver's
`subBuilders` array.  In JS these are references into the heap, so a later
fluent call on a child object is visible through the combined node.  To
settle the sharing claim this second model makes the heap explicit: a heap
is the list of all `MyCssSelector` objects allocated so far, a reference
is an index into it, and a `subBuilders` entry holds a reference.  The
fragment methods reuse the `Frag.*` transcriptions above. -/

/-- A `MyCssSelector` object as stored on the heap: fragment fields plus
the `subBuilders` array, whose selector entries are references. -/
structure NodeH where
  frag : Frag
  subBuilders : List (Nat ⊕ String)
deriving DecidableEq

/-- `new MyCssSelector()`, heap version. -/
def NodeH.new : NodeH :=
  ⟨Frag.empty, []⟩

/-- The heap: index `r` holds the object created by the `r`-th
allocation. -/
abbrev Heap := List NodeH

/-- Run a fragment method on the object at reference `r` (a method call
mutates only the receiver's own fields). -/
def updH (h : Heap) (r : Nat) (g : Frag → Except SelErr Unit × Frag) :
    Except SelErr Unit × Heap :=
  match h[r]? with
  | none => (.ok (), h)
  | some nd =>
    match g nd.frag with
    | (res, f') => (res, h.set r { nd with frag := f' })

/-- Method `element` on the object at `r`. -/
def elementH (h : Heap) (r : Nat) (v : String) : Except SelErr Unit × Heap :=
  updH h r (fun f => Frag.element f v)

/-- Method `id` on the object at `r`. -/
def idH (h : Heap) (r : Nat) (v : String) : Except SelErr Unit × Heap :=
  updH h r (fun f => Frag.id f v)

/-- Method `attr` on the object at `r`. -/
def attrH (h : Heap) (r : Nat) (v : String) : Except SelErr Unit × Heap :=
  updH h r (fun f => Frag.attr f v)

/-- Method `pseudoClass` on the object at `r`. -/
def pseudoClassH (h : Heap) (r : Nat) (v : String) : Except SelErr Unit × Heap :=
  updH h r (fun f => Frag.pseudoClass f v)

/-- Method `pseudoElement` on the object at `r`. -/
def pseudoElementH (h : Heap) (r : Nat) (v : String) : Except SelErr Unit × Heap :=
  updH h r (fun f => Frag.pseudoElement f v)

/-- Method `class` on the object at `r`. -/
def addClassH (h : Heap) (r : Nat) (v : String) : Except SelErr Unit × Heap :=
  updH h r (fun f => Frag.addClass f v)

/-- Method `combine` on the object at `r`: push references to the two
children and the combinator string. -/
def combineMH (h : Heap) (r : Nat) (r1 : Nat) (c : String) (r2 : Nat) : Heap :=
  match h[r]? with
  | none => h
  | some nd =>
    h.set r { nd with subBuilders := nd.subBuilders ++ [.inl r1, .inr c, .inl r2] }

/-- A facade fragment entry point, heap version: allocate a fresh object
(at index `h.length`) and run one fragment method on it.  Returns the
outcome, the new heap and the reference to the fresh object. -/
def facadeFragH (g : Frag → Except SelErr Unit × Frag) (h : Heap) :
    (Except SelErr Unit × Heap) × Nat :=
  (updH (h ++ [NodeH.new]) h.length g, h.length)

/-- `cssSelectorBuilder.element(val)`, heap version. -/
def facElementH (h : Heap) (v : String) : (Except SelErr Unit × Heap) × Nat :=
  facadeFragH (fun f => Frag.element f v) h

/-- `cssSelectorBuilder.id(val)`, heap version. -/
def facIdH (h : Heap) (v : String) : (Except SelErr Unit × Heap) × Nat :=
  facadeFragH (fun f => Frag.id f v) h

/-- `cssSelectorBuilder.class(val)`, heap version. -/
def facAddClassH (h : Heap) (v : String) : (Except SelErr Unit × Heap) × Nat :=
  facadeFragH (fun f => Frag.addClass f v) h

/-- `cssSelectorBuilder.attr(val)`, heap version. -/
def facAttrH (h : Heap) (v : String) : (Except SelErr Unit × Heap) × Nat :=
  facadeFragH (fun f => Frag.attr f v) h

/-- `cssSelectorBuilder.pseudoClass(val)`, heap version. -/
def facPseudoClassH (h : Heap) (v : String) : (Except SelErr Unit × Heap) × Nat :=
  facadeFragH (fun f => Frag.pseudoClass f v) h

/-- `cssSelectorBuilder.pseudoElement(val)`, heap version. -/
def facPseudoElementH (h : Heap) (v : String) : (Except SelErr Unit × Heap) × Nat :=
  facadeFragH (fun f => Frag.pseudoElement f v) h

/-- `cssSelectorBuilder.combine(s1, c, s2)`, heap version: allocate a
fresh object and push the triple onto it.  Never throws. -/
def facCombineH (h : Heap) (r1 : Nat) (c : String) (r2 : Nat) : Heap × Nat :=
  (combineMH (h ++ [NodeH.new]) h.length r1 c r2, h.length)

/-- `stringify()` on the heap, following references; `fuel` bounds the
recursion depth (the JS recursion diverges on a cyclic heap, which the
facade never builds; any fuel exceeding the reference-chain depth computes
the JS result). -/
def stringifyH : Nat → Heap → Nat → String
  | 0, _, _ => ""
  | fuel + 1, h, r =>
    match h[r]? with
    | none => ""
    | some nd =>
      if nd.subBuilders.isEmpty then simpleRender nd.frag
      else
        jsTrim (nd.subBuilders.foldl
          (fun acc item =>
            joinStep acc
              (match item with
               | .inl r2 => stringifyH fuel h r2
               | .inr s => s))
          "")

/-! ### Canonical build sequences (for the rendering claim)

A "valid fragment-call ordering" is: element, then id, then any number of
classes, then attribute, then any number of pseudo-classes, then
pseudo-element, each step optional.  `BuildSpec` records the values passed
at each step and `buildSimple` performs the corresponding chain of fluent
calls starting from a fresh node. -/

/-- The JS expression value of a fluent fragment call: the node on
success, the thrown error otherwise. -/
def elementE (n : MyCssSelector) (v : String) : Except SelErr MyCssSelector :=
  callResult (n.element v)

/-- Fluent `id` as an expression. -/
def idE (n : MyCssSelector) (v : String) : Except SelErr MyCssSelector :=
  callResult (n.id v)

/-- Fluent `attr` as an expression. -/
def attrE (n : MyCssSelector) (v : String) : Except SelErr MyCssSelector :=
  callResult (n.attr v)

/-- Fluent `pseudoClass` as an expression. -/
def pseudoClassE (n : MyCssSelector) (v : String) : Except SelErr MyCssSelector :=
  callResult (n.pseudoClass v)

/-- Fluent `pseudoElement` as an expression. -/
def pseudoElementE (n : MyCssSelector) (v : String) : Except SelErr MyCssSelector :=
  callResult (n.pseudoElement v)

/-- Fluent `class` as an expression. -/
def addClassE (n : MyCssSelector) (v : String) : Except SelErr MyCssSelector :=
  callResult (n.addClass v)

/-- Apply an optional fluent call. -/
def optApply (g : MyCssSelector → String → Except SelErr MyCssSelector)
    (o : Option String) (n : MyCssSelector) : Except SelErr MyCssSelector :=
  match o with
  | none => .ok n
  | some v => g n v

/-- Apply a fluent call once per listed value, left to right. -/
def listApply (g : MyCssSelector → String → Except SelErr MyCssSelector) :
    List String → MyCssSelector → Except SelErr MyCssSelector
  | [], n => .ok n
  | v :: vs, n =>
    match g n v with
    | .ok n' => listApply g vs n'
    | .error e => .error e

/-- The values passed along one canonical build sequence. -/
structure BuildSpec where
  elem : Option String
  idv : Option String
  cls : List String
  attrv : Option String
  pcs : List String
  pev : Option String

/-- Run the canonical build sequence on a fresh node. -/
def buildSimple (b : BuildSpec) : Except SelErr MyCssSelector := do
  let n0 := MyCssSelector.new
  let n1 ← optApply elementE b.elem n0
  let n2 ← optApply idE b.idv n1
  let n3 ← listApply addClassE b.cls n2
  let n4 ← optApply attrE b.attrv n3
  let n5 ← listApply pseudoClassE b.pcs n4
  optApply pseudoElementE b.pev n5

/-- The fragment fields such a build is expected to produce. -/
def fragOf (b : BuildSpec) : Frag :=
  ⟨b.elem, b.idv, b.attrv, b.pev, b.cls, b.pcs⟩

/-- The rendering asserted by the specification (its §4 wording): the
concatenation, in canonical order, of the element text, `#`+id, `.`+class
per class in append order, `[`+attribute+`]`, `:`+pseudo-class per
pseudo-class in append order, and `::`+pseudo-element, absent fragments
contributing the empty string. -/
def claimRender (b : BuildSpec) : String :=
  (match b.elem with | some e => e | none => "") ++
  (match b.idv with | some i => "#" ++ i | none => "") ++
  String.join (b.cls.map (fun c => "." ++ c)) ++
  (match b.attrv with | some a => "[" ++ a ++ "]" | none => "") ++
  String.join (b.pcs.map (fun p => ":" ++ p)) ++
  (match b.pev with | some p => "::" ++ p | none => "")

/-- An optional fragment value that is absent or non-empty (the regime in
which JS truthiness of the stored string agrees with presence). -/
def okOpt : Option String → Bool
  | none => true
  | some s => if s = "" then false else true

/-! ### `Rectangle` (source lines 23-27)

`function Rectangle(width, height)` stores both parameters and a
`getArea` closure reading them.  JS numbers are modelled by `Int` (the
claims only involve construction and one multiplication; on
integer-valued arguments the JS double product is the integer product in
the safe range). -/

/-- The state of a `Rectangle` object. -/
structure RectangleObj where
  width : Int
  height : Int
deriving DecidableEq

/-- `new Rectangle(width, height)`. -/
def Rectangle (width height : Int) : RectangleObj :=
  ⟨width, height⟩

/-- `r.getArea()`: returns `this.width * this.height` and, being a pure
read, leaves the object as it was — the pair is (result, receiver state
after the call). -/
def RectangleObj.getArea (r : RectangleObj) : Int × RectangleObj :=
  (r.width * r.height, r)

/-! ### JSON (`getJSON` / `fromJSON`, source lines 40-60)

`getJSON` is `JSON.stringify(obj)` and `fromJSON` is `JSON.parse(json)`
followed by `Object.setPrototypeOf(o, proto)`.  Both builtins are modelled
from their ECMA-262/ECMA-404 behaviour on the JSON-representable values:

* A JSON value (`JVal`) is null, a boolean, a number, a string, an array
  (`JArr`, a list of values), or an object (`JObj`, its own enumerable
  string-keyed fields in insertion order; a JS object has no duplicate
  keys).  Numbers are modelled as integers (`Int`); on integer-valued
  numbers in the safe range `JSON.stringify` prints plain decimal and
  `JSON.parse` reads it back exactly, which is the fragment the model
  covers (no fraction/exponent syntax).
* Strings are sequences of Unicode scalar values (no lone surrogates).
  `escChar` performs exactly the escaping of `JSON.stringify`'s
  QuoteJSONString: `"`, `\`, `\b`, `\f`, `\n`, `\r`, `\t`, and `\u00xx`
  for the remaining control characters.
* The parser accepts the grammar without insignificant whitespace
  (`JSON.stringify` emits none) and rejects raw control characters in
  strings as well as `\u` escapes denoting surrogates (strings of scalar
  values cannot hold lone surrogates).
* `JSON.parse` succeeds only when the whole input is consumed.  The
  recursion of `parseVal` is fuelled; one fuel unit is spent per nesting
  step, and `input length + 1` is shown below to suffice on
  `JSON.stringify` output. -/

mutual
/-- A JSON-representable value. -/
inductive JVal where
  | jnull : JVal
  | jbool : Bool → JVal
  | jnum : Int → JVal
  | jstr : String → JVal
  | jarr : JArr → JVal
  | jobj : JObj → JVal
/-- The element list of a JSON array. -/
inductive JArr where
  | nil : JArr
  | cons : JVal → JArr → JArr
/-- The field list of a JSON object (key/value pairs in insertion
order). -/
inductive JObj where
  | nil : JObj
  | cons : String → JVal → JObj → JObj
end

/-- Decimal digit character for `d < 10`. -/
def digitCh (d : Nat) : Char :=
  Char.ofNat (48 + d)

/-- Is `c` one of `0`-`9`? -/
def isDigitCh (c : Char) : Bool :=
  48 ≤ c.toNat && c.toNat ≤ 57

/-- Lowercase hexadecimal digit character for `d < 16` (the case
`JSON.stringify` emits in `\u00xx` escapes). -/
def hexDig (d : Nat) : Char :=
  if d < 10 then Char.ofNat (48 + d) else Char.ofNat (87 + d)

/-- Value of a hexadecimal digit character, upper or lower case
(`JSON.parse` accepts both). -/
def hexVal (c : Char) : Option Nat :=
  if 48 ≤ c.toNat ∧ c.toNat ≤ 57 then some (c.toNat - 48)
  else if 97 ≤ c.toNat ∧ c.toNat ≤ 102 then some (c.toNat - 87)
  else if 65 ≤ c.toNat ∧ c.toNat ≤ 70 then some (c.toNat - 55)
  else none

/-- Decimal digits of a natural number, most significant first (no
leading zeros; `0` prints as `"0"`). -/
def natDigits (n : Nat) : List Char :=
  if n < 10 then [digitCh n]
  else natDigits (n / 10) ++ [digitCh (n % 10)]
decreasing_by exact Nat.div_lt_self (by omega) (by omega)

/-- `ToString` of an integer-valued JS number: optional minus sign and
decimal digits. -/
def intChars (n : Int) : List Char :=
  if n < 0 then '-' :: natDigits n.natAbs else natDigits n.toNat

/-- QuoteJSONString's escaping of one character (see the section
comment). -/
def escChar (c : Char) : List Char :=
  if c = '"' then ['\\', '"']
  else if c = '\\' then ['\\', '\\']
  else if c = '\x08' then ['\\', 'b']
  else if c = '\x0c' then ['\\', 'f']
  else if c = '\n' then ['\\', 'n']
  else if c = '\r' then ['\\', 'r']
  else if c = '\t' then ['\\', 't']
  else if c.toNat < 0x20 then
    ['\\', 'u', '0', '0', hexDig (c.toNat / 16), hexDig (c.toNat % 16)]
  else [c]

/-- A JSON string literal: quote, escaped characters, quote. -/
def escString (s : String) : List Char :=
  '"' :: (s.data.flatMap escChar ++ ['"'])

mutual
/-- `JSON.stringify` of a value, as a character list. -/
def emitVal : JVal → List Char
  | .jnull => ['n', 'u', 'l', 'l']
  | .jbool true => ['t', 'r', 'u', 'e']
  | .jbool false => ['f', 'a', 'l', 's', 'e']
  | .jnum n => intChars n
  | .jstr s => escString s
  | .jarr xs => '[' :: (emitArrItems xs ++ [']'])
  | .jobj ms => '\x7b' :: (emitObjItems ms ++ ['\x7d'])
/-- The comma-separated element list of an array. -/
def emitArrItems : JArr → List Char
  | .nil => []
  | .cons v .nil => emitVal v
  | .cons v (.cons w rest) => emitVal v ++ ',' :: emitArrItems (.cons w rest)
/-- The comma-separated `"key":value` member list of an object. -/
def emitObjItems : JObj → List Char
  | .nil => []
  | .cons k v .nil => escString k ++ ':' :: emitVal v
  | .cons k v (.cons k2 v2 rest) =>
    escString k ++ ':' :: emitVal v ++ ',' :: emitObjItems (.cons k2 v2 rest)
end

/-- Prefix a character onto a pending string-parse result. -/
def consStr (c : Char) :
    Option (List Char × List Char) → Option (List Char × List Char)
  | none => none
  | some (cs, r) => some (c :: cs, r)

mutual
/-- Parse the body of a JSON string literal after the opening quote,
returning the decoded characters and the input after the closing
quote. -/
def parseStrAux (l : List Char) : Option (List Char × List Char) :=
  match l with
  | [] => none
  | c :: rest =>
    if c = '"' then some ([], rest)
    else if c = '\\' then parseEsc rest
    else if c.toNat < 0x20 then none
    else consStr c (parseStrAux rest)
/-- Decode one escape sequence (the input starts right after the
backslash) and continue with the string body. -/
def parseEsc (l : List Char) : Option (List Char × List Char) :=
  match l with
  | [] => none
  | e :: rest2 =>
    if e = '"' then consStr '"' (parseStrAux rest2)
    else if e = '\\' then consStr '\\' (parseStrAux rest2)
    else if e = '/' then consStr '/' (parseStrAux rest2)
    else if e = 'b' then consStr '\x08' (parseStrAux rest2)
    else if e = 'f' then consStr '\x0c' (parseStrAux rest2)
    else if e = 'n' then consStr '\n' (parseStrAux rest2)
    else if e = 'r' then consStr '\r' (parseStrAux rest2)
    else if e = 't' then consStr '\t' (parseStrAux rest2)
    else if e = 'u' then
      match rest2 with
      | h1 :: h2 :: h3 :: h4 :: rest3 =>
        (hexVal h1).bind fun a =>
          (hexVal h2).bind fun b =>
            (hexVal h3).bind fun c2 =>
              (hexVal h4).bind fun d =>
                if 0xd800 ≤ ((a * 16 + b) * 16 + c2) * 16 + d ∧
                    ((a * 16 + b) * 16 + c2) * 16 + d < 0xe000 then none
                else consStr (Char.ofNat (((a * 16 + b) * 16 + c2) * 16 + d))
                  (parseStrAux rest3)
      | _ => none
    else none
end

/-- Parse a run of decimal digits (at least one) into its value. -/
def parseNat (l : List Char) : Option (Nat × List Char) :=
  let digs := l.takeWhile isDigitCh
  if digs.isEmpty then none
  else some (digs.foldl (fun a c => a * 10 + (c.toNat - 48)) 0,
             l.dropWhile isDigitCh)

/-- Parse an integer numeral (covering the number grammar without
fraction and exponent parts). -/
def parseNumber (l : List Char) : Option (Int × List Char) :=
  match l with
  | '-' :: rest =>
    match parseNat rest with
    | some (m, r) => some (-(m : Int), r)
    | none => none
  | _ =>
    match parseNat l with
    | some (m, r) => some ((m : Int), r)
    | none => none

/-- Match an expected literal character sequence, returning the input
after it. -/
def expectChars : List Char → List Char → Option (List Char)
  | [], l => some l
  | _ :: _, [] => none
  | p :: ps, c :: cs => if c = p then expectChars ps cs else none

mutual
/-- Parse one JSON value; `fuel` bounds the nesting depth. -/
def parseVal : Nat → List Char → Option (JVal × List Char)
  | 0, _ => none
  | fuel + 1, l =>
    match l with
    | [] => none
    | c :: rest =>
      if c = 'n' then (expectChars ['u', 'l', 'l'] rest).map (fun r => (.jnull, r))
      else if c = 't' then
        (expectChars ['r', 'u', 'e'] rest).map (fun r => (.jbool true, r))
      else if c = 'f' then
        (expectChars ['a', 'l', 's', 'e'] rest).map (fun r => (.jbool false, r))
      else if c = '"' then (parseStrAux rest).map (fun p => (.jstr ⟨p.1⟩, p.2))
      else if c = '[' then
        if rest.head? = some ']' then some (.jarr .nil, rest.tail)
        else (parseArrItems fuel rest).map (fun p => (.jarr p.1, p.2))
      else if c = '\x7b' then
        if rest.head? = some '\x7d' then some (.jobj .nil, rest.tail)
        else (parseObjItems fuel rest).map (fun p => (.jobj p.1, p.2))
      else (parseNumber (c :: rest)).map (fun p => (.jnum p.1, p.2))
/-- Parse the elements of a non-empty array up to and including the
closing bracket. -/
def parseArrItems : Nat → List Char → Option (JArr × List Char)
  | 0, _ => none
  | fuel + 1, l =>
    match parseVal fuel l with
    | none => none
    | some (v, r) =>
      match r with
      | ',' :: r2 =>
        match parseArrItems fuel r2 with
        | some (xs, r3) => some (.cons v xs, r3)
        | none => none
      | ']' :: r2 => some (.cons v .nil, r2)
      | _ => none
/-- Parse the members of a non-empty object up to and including the
closing brace. -/
def parseObjItems : Nat → List Char → Option (JObj × List Char)
  | 0, _ => none
  | fuel + 1, l =>
    match l with
    | '"' :: rest =>
      (match parseStrAux rest with
       | none => none
       | some (k, r1) =>
         match r1 with
         | ':' :: r2 =>
           match parseVal fuel r2 with
           | none => none
           | some (v, r3) =>
             match r3 with
             | ',' :: r4 =>
               match parseObjItems fuel r4 with
               | some (ms, r5) => some (.cons ⟨k⟩ v ms, r5)
               | none => none
             | '\x7d' :: r4 => some (.cons ⟨k⟩ v .nil, r4)
             | _ => none
         | _ => none)
    | _ => none
end

/-- `JSON.stringify`, i.e. the body of `getJSON` (source lines 40-42). -/
def getJSON (v : JVal) : String :=
  ⟨emitVal v⟩

/-- `JSON.parse`: parse with sufficient fuel and require the whole input
to be consumed. -/
def jsonParse (s : String) : Option JVal :=
  match parseVal (s.data.length + 1) s.data with
  | some (v, []) => some v
  | _ => none

/-- A JS object carrying a prototype reference of type `π` and its own
fields. -/
structure JsObject (π : Type) where
  proto : π
  fields : JObj

/-- `fromJSON(proto, json)` (source lines 56-60): `JSON.parse` the text;
when it yields an object, attach `proto` (`Object.setPrototypeOf`).  A
non-object parse result is a primitive, which `setPrototypeOf` leaves
prototype-less here (modelled as failure, unused by the claims). -/
def fromJSON {π : Type} (proto : π) (json : String) : Option (JsObject π) :=
  match jsonParse json with
  | some (.jobj ms) => some ⟨proto, ms⟩
  | _ => none

/-! ### Claim-side predicates and dispatch helpers -/

/-- Dispatch the fragment method for a given fragment kind (the kinds are
identified with the field names of `order`, which lists them in canonical
order). -/
def callMethod (f : Frag) (k : FieldName) (v : String) :
    Except SelErr Unit × Frag :=
  match k with
  | .myElement => Frag.element f v
  | .myId => Frag.id f v
  | .myClasses => Frag.addClass f v
  | .myAttr => Frag.attr f v
  | .myPseudoClasses => Frag.pseudoClass f v
  | .myPseudoElement => Frag.pseudoElement f v

/-- Canonical position of a fragment kind (its index in `order`). -/
def fieldIdx (k : FieldName) : Nat :=
  order.indexOf k

/-- The claim's notion of "a fragment of this kind has been set": the
singleton fields hold a value, the list fields are non-empty. -/
def isSetField (f : Frag) : FieldName → Bool
  | .myElement => f.myElement.isSome
  | .myId => f.myId.isSome
  | .myClasses => !f.myClasses.isEmpty
  | .myAttr => f.myAttr.isSome
  | .myPseudoClasses => !f.myPseudoClasses.isEmpty
  | .myPseudoElement => f.myPseudoElement.isSome

/-- The claim's notion of "some fragment field is populated" on a node. -/
def hasFragment (f : Frag) : Bool :=
  f.myElement.isSome || f.myId.isSome || f.myAttr.isSome ||
    f.myPseudoElement.isSome || !f.myClasses.isEmpty ||
    !f.myPseudoClasses.isEmpty

/-- `s` is non-empty and does not start with JS whitespace (so `trim`
leaves its left end alone). -/
def noLeadWs (s : String) : Bool :=
  match s.data with
  | [] => false
  | c :: _ => !isJsWs c

/-- `s` is non-empty and does not end with JS whitespace (so `trim`
leaves its right end alone). -/
def noTrailWs (s : String) : Bool :=
  match s.data.reverse with
  | [] => false
  | c :: _ => !isJsWs c

/-- The continuation after an emitted numeral never starts with a digit
(so greedy digit parsing stops exactly at the numeral's end). -/
def goodTail : List Char → Bool
  | [] => true
  | c :: _ => !isDigitCh c

mutual
/-- Fuel sufficient for `parseVal` on the emitted text of a value. -/
def jNeed : JVal → Nat
  | .jarr xs => jNeedArr xs + 1
  | .jobj ms => jNeedObj ms + 1
  | _ => 1
/-- Fuel sufficient for `parseArrItems` on emitted array items. -/
def jNeedArr : JArr → Nat
  | .nil => 1
  | .cons v rest => max (jNeed v) (jNeedArr rest) + 1
/-- Fuel sufficient for `parseObjItems` on emitted object members. -/
def jNeedObj : JObj → Nat
  | .nil => 1
  | .cons _ v rest => max (jNeed v) (jNeedObj rest) + 1
end

/-! ## Theorems

Shared helper lemmas first, then one theorem per claim (with its witness
or counterexample where required). -/

/-- Rebuilding a node from its two projections is the identity. -/
theorem node_eta (n : MyCssSelector) :
    MyCssSelector.mk n.frag n.subBuilders = n := by
  cases n
  rfl

/-- If some field after `K` in `order` is truthy, `checkAfterElemsExist`
reports a violation. -/
theorem check_true_of_mem (f : Frag) (K L : FieldName)
    (hmem : L ∈ order.drop (order.indexOf K + 1))
    (htr : truthyField f L = true) :
    checkAfterElemsExist f K = true := by
  have hex : ∃ x, x ∈ order.drop (order.indexOf K + 1) ∧ truthyField f x = true :=
    ⟨L, hmem, htr⟩
  simpa [checkAfterElemsExist, List.find?_isSome] using hex

/-- Each method other than `pseudoElement` begins with its order check
and throws the ordering error when it fails. -/
theorem method_order_error (f : Frag) (K : FieldName) (v : String)
    (hchk : checkAfterElemsExist f K = true)
    (hne : K ≠ FieldName.myPseudoElement) :
    (callMethod f K v).1 = .error .orderViolation := by
  cases K <;>
    simp [callMethod, Frag.element, Frag.id, Frag.addClass, Frag.attr,
      Frag.pseudoClass, hchk] at *

/-- Claim C9: `new Rectangle(w, h)` stores `w` and `h`, `getArea()`
returns `w * h`, and calling `getArea()` leaves the object unchanged. -/
theorem claim_C9 (w h : Int) :
    (Rectangle w h).width = w ∧ (Rectangle w h).height = h ∧
    ((Rectangle w h).getArea).1 = w * h ∧
    ((Rectangle w h).getArea).2 = Rectangle w h :=
  ⟨rfl, rfl, rfl, rfl⟩

/-- Claim C3 (counterexample): `id('')` records the id fragment, yet a
subsequent `element('a')` on that node succeeds instead of raising the
ordering error — the order check tests JS truthiness and the stored empty
string is falsy. -/
theorem claim_C3_counterexample :
    (Frag.id Frag.empty "").1 = .ok () ∧
    (Frag.id Frag.empty "").2 = ⟨none, some "", none, none, [], []⟩ ∧
    fieldIdx .myElement < fieldIdx .myId ∧
    isSetField ⟨none, some "", none, none, [], []⟩ .myId = true ∧
    (callMethod ⟨none, some "", none, none, [], []⟩ .myElement "a").1 = .ok () := by
  decide

/-- Claim C3 (amended): calling the method for an earlier-order kind `K`
on a node on which a later kind `L` is recorded with a *truthy* value
(any appended class or pseudo-class; a non-empty element, id, attribute
or pseudo-element string) always raises the ordering error, whatever
value is passed. -/
theorem claim_C3_amended (f : Frag) (K L : FieldName) (v : String)
    (hlt : fieldIdx K < fieldIdx L) (htr : truthyField f L = true) :
    (callMethod f K v).1 = .error .orderViolation := by
  have hmem : L ∈ order.drop (order.indexOf K + 1) := by
    have hall : ∀ K2 L2 : FieldName, fieldIdx K2 < fieldIdx L2 →
        L2 ∈ order.drop (order.indexOf K2 + 1) := by decide
    exact hall K L hlt
  have hne : K ≠ FieldName.myPseudoElement := by
    intro he
    subst he
    have hnone : ∀ L2 : FieldName, ¬ (fieldIdx .myPseudoElement < fieldIdx L2) := by
      decide
    exact hnone L hlt
  exact method_order_error f K v (check_true_of_mem f K L hmem htr) hne

/-- Claim C3 witness: `id` after a recorded attribute raises the ordering
error. -/
theorem claim_C3_witness :
    fieldIdx .myId < fieldIdx .myAttr ∧
    truthyField ⟨none, none, some "x", none, [], []⟩ .myAttr = true ∧
    (callMethod ⟨none, none, some "x", none, [], []⟩ .myId "v").1 =
      .error .orderViolation :=
  ⟨by decide, by decide,
    claim_C3_amended ⟨none, none, some "x", none, [], []⟩ .myId .myAttr "v"
      (by decide) (by decide)⟩

/-- Claim C4 (counterexample): after `element('')`, a second
`element('a')` succeeds and overwrites instead of raising the duplicate
error — the duplicate check tests truthiness of the stored value and `''`
is falsy. -/
theorem claim_C4_counterexample :
    (Frag.element Frag.empty "").1 = .ok () ∧
    (Frag.element (Frag.element Frag.empty "").2 "a").1 = .ok () ∧
    (Frag.element (Frag.element Frag.empty "").2 "a").2.myElement = some "a" := by
  decide

/-- Claim C4 (amended): a second `element`/`id`/`pseudoElement` call
raises the duplicate error provided the already-stored value is truthy
(non-empty) and — for `element` and `id`, whose order check runs first —
no later-order fragment is populated (otherwise the ordering error is
raised instead); for `pseudoElement` the duplicate check is
unconditional. -/
theorem claim_C4_amended (f : Frag) (v2 : String) :
    (truthyOpt f.myElement = true → checkAfterElemsExist f .myElement = false →
      (Frag.element f v2).1 = .error .duplicateFragment) ∧
    (truthyOpt f.myId = true → checkAfterElemsExist f .myId = false →
      (Frag.id f v2).1 = .error .duplicateFragment) ∧
    (truthyOpt f.myPseudoElement = true →
      (Frag.pseudoElement f v2).1 = .error .duplicateFragment) := by
  refine ⟨fun h1 h2 => ?_, fun h1 h2 => ?_, fun h1 => ?_⟩ <;>
    simp [Frag.element, Frag.id, Frag.pseudoElement, h1, *]

/-- Claim C4 witness: a second `element` call after `element('a')`. -/
theorem claim_C4_witness :
    truthyOpt (⟨some "a", none, none, none, [], []⟩ : Frag).myElement = true ∧
    checkAfterElemsExist ⟨some "a", none, none, none, [], []⟩ .myElement = false ∧
    (Frag.element ⟨some "a", none, none, none, [], []⟩ "b").1 =
      .error .duplicateFragment :=
  ⟨by decide, by decide,
    (claim_C4_amended ⟨some "a", none, none, none, [], []⟩ "b").1
      (by decide) (by decide)⟩

/-- In `element`, every throw happens before the field write. -/
theorem elementFrame (f : Frag) (v : String) (e : SelErr) :
    (Frag.element f v).1 = .error e → (Frag.element f v).2 = f := by
  unfold Frag.element
  split
  · intro _; rfl
  · split
    · intro _; rfl
    · intro h; exact absurd h (by simp)

/-- In `id`, every throw happens before the field write. -/
theorem idFrame (f : Frag) (v : String) (e : SelErr) :
    (Frag.id f v).1 = .error e → (Frag.id f v).2 = f := by
  unfold Frag.id
  split
  · intro _; rfl
  · split
    · intro _; rfl
    · intro h; exact absurd h (by simp)

/-- In `attr`, the only throw happens before the field write. -/
theorem attrFrame (f : Frag) (v : String) (e : SelErr) :
    (Frag.attr f v).1 = .error e → (Frag.attr f v).2 = f := by
  unfold Frag.attr
  split
  · intro _; rfl
  · intro h; exact absurd h (by simp)

/-- In `pseudoClass`, the only throw happens before the push. -/
theorem pseudoClassFrame (f : Frag) (v : String) (e : SelErr) :
    (Frag.pseudoClass f v).1 = .error e → (Frag.pseudoClass f v).2 = f := by
  unfold Frag.pseudoClass
  split
  · intro _; rfl
  · intro h; exact absurd h (by simp)

/-- In `pseudoElement`, the only throw happens before the write. -/
theorem pseudoElementFrame (f : Frag) (v : String) (e : SelErr) :
    (Frag.pseudoElement f v).1 = .error e → (Frag.pseudoElement f v).2 = f := by
  unfold Frag.pseudoElement
  split
  · intro _; rfl
  · intro h; exact absurd h (by simp)

/-- In `class`, the only throw happens before the push. -/
theorem addClassFrame (f : Frag) (v : String) (e : SelErr) :
    (Frag.addClass f v).1 = .error e → (Frag.addClass f v).2 = f := by
  unfold Frag.addClass
  split
  · intro _; rfl
  · intro h; exact absurd h (by simp)

/-- Lift a fragment-level "unchanged on error" fact to nodes. -/
theorem liftFrame (g : Frag → String → Except SelErr Unit × Frag)
    (hg : ∀ f v e, (g f v).1 = .error e → (g f v).2 = f)
    (n : MyCssSelector) (v : String) (e : SelErr) :
    (liftFrag g n v).1 = .error e → (liftFrag g n v).2 = n := by
  intro h
  unfold liftFrag at h ⊢
  have h1 : (g n.frag v).1 = .error e := by
    rcases hp : g n.frag v with ⟨res, f'⟩
    rw [hp] at h
    exact h
  have h2 : (g n.frag v).2 = n.frag := hg n.frag v e h1
  rcases hp : g n.frag v with ⟨res, f'⟩
  rw [hp] at h2
  simp at h2
  rw [h2]
  exact node_eta n

/-- Claim C6: whenever a fragment call throws, the receiving node is left
exactly as it was — each fragment call is all-or-nothing. -/
theorem claim_C6 (n : MyCssSelector) (v : String) (e : SelErr) :
    ((n.element v).1 = .error e → (n.element v).2 = n) ∧
    ((n.id v).1 = .error e → (n.id v).2 = n) ∧
    ((n.addClass v).1 = .error e → (n.addClass v).2 = n) ∧
    ((n.attr v).1 = .error e → (n.attr v).2 = n) ∧
    ((n.pseudoClass v).1 = .error e → (n.pseudoClass v).2 = n) ∧
    ((n.pseudoElement v).1 = .error e → (n.pseudoElement v).2 = n) :=
  ⟨liftFrame _ elementFrame n v e, liftFrame _ idFrame n v e,
   liftFrame _ addClassFrame n v e, liftFrame _ attrFrame n v e,
   liftFrame _ pseudoClassFrame n v e, liftFrame _ pseudoElementFrame n v e⟩

/-- Claim C6 witness: `element` on a node whose id is set throws and
leaves the node unchanged. -/
theorem claim_C6_witness :
    ((MyCssSelector.mk ⟨none, some "x", none, none, [], []⟩ .nil).element "a").1 =
      .error .orderViolation ∧
    ((MyCssSelector.mk ⟨none, some "x", none, none, [], []⟩ .nil).element "a").2 =
      .mk ⟨none, some "x", none, none, [], []⟩ .nil :=
  ⟨rfl, (claim_C6 (.mk ⟨none, some "x", none, none, [], []⟩ .nil) "a"
    .orderViolation).1 rfl⟩

/-- Claim C10 (counterexample): a second `attr` call *can* raise an
error — after `attr('x')` and `pseudoClass('p')`, the call `attr('y')`
raises the ordering error. -/
theorem claim_C10_counterexample :
    (Frag.attr Frag.empty "x").1 = .ok () ∧
    (Frag.pseudoClass (Frag.attr Frag.empty "x").2 "p").1 = .ok () ∧
    (Frag.attr (Frag.pseudoClass (Frag.attr Frag.empty "x").2 "p").2 "y").1 =
      .error .orderViolation := by
  decide

/-- Claim C10 (amended): while no pseudo-class or pseudo-element is
populated, a second `attr` call never raises an error: it silently
overwrites the stored attribute text (last-write-wins), and the attribute
then renders from the most recent value only (`[v₂]`, or nothing when
`v₂` is empty).  Once a pseudo-class or pseudo-element is set, a further
`attr` call raises the ordering error instead. -/
theorem claim_C10_amended (f : Frag) (v1 v2 : String)
    (_hprev : f.myAttr = some v1)
    (hpc : f.myPseudoClasses = []) (hpe : truthyOpt f.myPseudoElement = false) :
    Frag.attr f v2 = (.ok (), { f with myAttr := some v2 }) ∧
    Frag.getAttr { f with myAttr := some v2 } =
      (if v2 = "" then "" else "[" ++ v2 ++ "]") := by
  have hchk : checkAfterElemsExist f .myAttr = false := by
    simp [checkAfterElemsExist, order, List.find?, truthyField, hpc, hpe]
  exact ⟨by simp [Frag.attr, hchk], by simp [Frag.getAttr]⟩

/-- Claim C10 witness: `attr('y')` right after `attr('x')` overwrites. -/
theorem claim_C10_witness :
    (⟨none, none, some "x", none, [], []⟩ : Frag).myAttr = some "x" ∧
    (⟨none, none, some "x", none, [], []⟩ : Frag).myPseudoClasses = [] ∧
    truthyOpt (⟨none, none, some "x", none, [], []⟩ : Frag).myPseudoElement = false ∧
    (Frag.attr ⟨none, none, some "x", none, [], []⟩ "y" =
      (.ok (), ⟨none, none, some "y", none, [], []⟩) ∧
     Frag.getAttr ⟨none, none, some "y", none, [], []⟩ =
       (if "y" = "" then "" else "[" ++ "y" ++ "]")) :=
  ⟨rfl, rfl, rfl,
    claim_C10_amended ⟨none, none, some "x", none, [], []⟩ "x" "y" rfl rfl rfl⟩

/-- The element step of a canonical build always succeeds on the fresh
node. -/
theorem buildStep_elem (o : Option String) :
    optApply elementE o MyCssSelector.new =
      .ok (.mk ⟨o, none, none, none, [], []⟩ .nil) := by
  cases o <;> rfl

/-- The id step succeeds while only the element is populated. -/
theorem buildStep_id (e o : Option String) :
    optApply idE o (.mk ⟨e, none, none, none, [], []⟩ .nil) =
      .ok (.mk ⟨e, o, none, none, [], []⟩ .nil) := by
  cases o <;> rfl

/-- The class steps succeed and append in order while the attribute,
pseudo-classes and pseudo-element are unpopulated. -/
theorem buildStep_classes (e i : Option String) (cls : List String) :
    ∀ acc : List String,
      listApply addClassE cls (.mk ⟨e, i, none, none, acc, []⟩ .nil) =
        .ok (.mk ⟨e, i, none, none, acc ++ cls, []⟩ .nil) := by
  induction cls with
  | nil => intro acc; simp [listApply]
  | cons c cs ih =>
    intro acc
    have hstep : addClassE (.mk ⟨e, i, none, none, acc, []⟩ .nil) c =
        .ok (.mk ⟨e, i, none, none, acc ++ [c], []⟩ .nil) := rfl
    calc listApply addClassE (c :: cs) (.mk ⟨e, i, none, none, acc, []⟩ .nil)
        = listApply addClassE cs (.mk ⟨e, i, none, none, acc ++ [c], []⟩ .nil) := by
          simp [listApply, hstep]
      _ = .ok (.mk ⟨e, i, none, none, (acc ++ [c]) ++ cs, []⟩ .nil) := ih (acc ++ [c])
      _ = .ok (.mk ⟨e, i, none, none, acc ++ (c :: cs), []⟩ .nil) := by simp

/-- The attribute step succeeds while the pseudo-classes and
pseudo-element are unpopulated. -/
theorem buildStep_attr (e i : Option String) (cls : List String) (o : Option String) :
    optApply attrE o (.mk ⟨e, i, none, none, cls, []⟩ .nil) =
      .ok (.mk ⟨e, i, o, none, cls, []⟩ .nil) := by
  cases o <;> rfl

/-- The pseudo-class steps succeed and append in order while the
pseudo-element is unpopulated. -/
theorem buildStep_pcs (e i a : Option String) (cls : List String) (pcs : List String) :
    ∀ acc : List String,
      listApply pseudoClassE pcs (.mk ⟨e, i, a, none, cls, acc⟩ .nil) =
        .ok (.mk ⟨e, i, a, none, cls, acc ++ pcs⟩ .nil) := by
  induction pcs with
  | nil => intro acc; simp [listApply]
  | cons c cs ih =>
    intro acc
    have hstep : pseudoClassE (.mk ⟨e, i, a, none, cls, acc⟩ .nil) c =
        .ok (.mk ⟨e, i, a, none, cls, acc ++ [c]⟩ .nil) := rfl
    calc listApply pseudoClassE (c :: cs) (.mk ⟨e, i, a, none, cls, acc⟩ .nil)
        = listApply pseudoClassE cs (.mk ⟨e, i, a, none, cls, acc ++ [c]⟩ .nil) := by
          simp [listApply, hstep]
      _ = .ok (.mk ⟨e, i, a, none, cls, (acc ++ [c]) ++ cs⟩ .nil) := ih (acc ++ [c])
      _ = .ok (.mk ⟨e, i, a, none, cls, acc ++ (c :: cs)⟩ .nil) := by simp

/-- The pseudo-element step succeeds when reached for the first time. -/
theorem buildStep_pe (e i a : Option String) (cls pcs : List String)
    (o : Option String) :
    optApply pseudoElementE o (.mk ⟨e, i, a, none, cls, pcs⟩ .nil) =
      .ok (.mk ⟨e, i, a, o, cls, pcs⟩ .nil) := by
  cases o <;> rfl

/-- Computation rule for a successful monadic step. -/
theorem ok_bind {α β : Type} (x : α) (f : α → Except SelErr β) :
    (Except.ok x : Except SelErr α) >>= f = f x := rfl

/-- A canonical build sequence always succeeds, and it produces exactly
the fragment fields listed in the build. -/
theorem buildSimple_ok (b : BuildSpec) :
    buildSimple b = .ok (.mk (fragOf b) .nil) := by
  obtain ⟨e, i, cls, a, pcs, pe⟩ := b
  unfold buildSimple
  simp only [buildStep_elem, buildStep_id, buildStep_classes, buildStep_attr,
    buildStep_pcs, buildStep_pe, ok_bind, List.nil_append, fragOf]

/-- Folding append over a list hoists the accumulator out front. -/
theorem foldl_append_hoist (l : List String) :
    ∀ a : String, l.foldl (· ++ ·) a = a ++ String.join l := by
  induction l with
  | nil => intro a; simp [String.join]
  | cons s t ih =>
    intro a
    have h1 : String.join (s :: t) = s ++ String.join t := by
      show List.foldl (· ++ ·) ("" ++ s) t = s ++ String.join t
      rw [String.empty_append, ih s]
    show List.foldl (· ++ ·) (a ++ s) t = a ++ String.join (s :: t)
    rw [ih (a ++ s), h1, String.append_assoc]

/-- The `reduce`-style prefixing fold equals prefixing each entry and
joining. -/
theorem foldl_pre (p : String) (l : List String) :
    ∀ acc : String,
      l.foldl (fun a c => a ++ p ++ c) acc =
        acc ++ String.join (l.map fun c => p ++ c) := by
  induction l with
  | nil => intro acc; simp [String.join]
  | cons c cs ih =>
    intro acc
    have h1 : String.join ((p ++ c) :: cs.map fun x => p ++ x) =
        (p ++ c) ++ String.join (cs.map fun x => p ++ x) := by
      show List.foldl (· ++ ·) ("" ++ (p ++ c)) _ = _
      rw [String.empty_append, foldl_append_hoist]
    show List.foldl (fun a c => a ++ p ++ c) (acc ++ p ++ c) cs = _
    rw [ih (acc ++ p ++ c), List.map, h1]
    simp [String.append_assoc]

/-- A populated fragment value admitted by `okOpt` is non-empty. -/
theorem okOpt_ne {o : Option String} (h : okOpt o = true) (s : String)
    (he : o = some s) : ¬ s = "" := by
  subst he
  intro hs
  subst hs
  simp [okOpt] at h

/-- With `okOpt` fragment values, the simple-selector render is exactly
the claimed canonical concatenation. -/
theorem render_eq (b : BuildSpec) (h1 : okOpt b.idv = true)
    (h2 : okOpt b.attrv = true) (h3 : okOpt b.pev = true) :
    simpleRender (fragOf b) = claimRender b := by
  obtain ⟨e, i, cls, a, pcs, pe⟩ := b
  have hElem : Frag.getElement ⟨e, i, a, pe, cls, pcs⟩ =
      (match e with | some s => s | none => "") := by
    cases e <;> rfl
  have hId : Frag.getId ⟨e, i, a, pe, cls, pcs⟩ =
      (match i with | some s => "#" ++ s | none => "") := by
    cases i with
    | none => rfl
    | some s => simp [Frag.getId, okOpt_ne h1 s rfl]
  have hAttr : Frag.getAttr ⟨e, i, a, pe, cls, pcs⟩ =
      (match a with | some s => "[" ++ s ++ "]" | none => "") := by
    cases a with
    | none => rfl
    | some s => simp [Frag.getAttr, okOpt_ne h2 s rfl]
  have hPe : Frag.getPseudoElement ⟨e, i, a, pe, cls, pcs⟩ =
      (match pe with | some s => "::" ++ s | none => "") := by
    cases pe with
    | none => rfl
    | some s => simp [Frag.getPseudoElement, okOpt_ne h3 s rfl]
  have hCls : Frag.getClass ⟨e, i, a, pe, cls, pcs⟩ =
      String.join (cls.map fun c => "." ++ c) := by
    show List.foldl _ "" cls = _
    rw [foldl_pre "." cls "", String.empty_append]
  have hPcs : Frag.getPseudoClass ⟨e, i, a, pe, cls, pcs⟩ =
      String.join (pcs.map fun c => ":" ++ c) := by
    show List.foldl _ "" pcs = _
    rw [foldl_pre ":" pcs "", String.empty_append]
  simp only [simpleRender, fragOf]
  rw [hElem, hId, hAttr, hPe, hCls, hPcs]
  unfold claimRender
  cases e <;> cases i <;> cases a <;> cases pe <;> rfl

/-- Claim C1 (counterexample): the build `element('a'); id('')` is a
valid ordering, but `stringify()` returns `"a"` while the claimed
canonical concatenation is `"a" ++ "#" ++ "" = "a#"` — an id stored as
the empty string renders as absent, not as `#`. -/
theorem claim_C1_counterexample :
    buildSimple ⟨some "a", some "", [], none, [], none⟩ =
      .ok (.mk ⟨some "a", some "", none, none, [], []⟩ .nil) ∧
    (MyCssSelector.mk ⟨some "a", some "", none, none, [], []⟩ .nil).stringify = "a" ∧
    claimRender ⟨some "a", some "", [], none, [], none⟩ = "a#" ∧
    (MyCssSelector.mk ⟨some "a", some "", none, none, [], []⟩ .nil).stringify ≠
      claimRender ⟨some "a", some "", [], none, [], none⟩ :=
  ⟨rfl, rfl, rfl, by decide⟩

/-- Claim C1 (amended): for every canonical build whose id, attribute and
pseudo-element values, when present, are non-empty, the build succeeds
and `stringify()` returns exactly the canonical concatenation: element
text, `#`+id, `.`+class per class in append order, `[`+attribute+`]`,
`:`+pseudo-class per pseudo-class in append order, `::`+pseudo-element,
absent fragments contributing the empty string with no extra
separators.  (A singleton fragment stored as the empty string renders as
absent instead of as its prefixed form, hence the restriction.) -/
theorem claim_C1_amended (b : BuildSpec) (h1 : okOpt b.idv = true)
    (h2 : okOpt b.attrv = true) (h3 : okOpt b.pev = true) :
    ∃ n, buildSimple b = .ok n ∧ n.stringify = claimRender b := by
  refine ⟨.mk (fragOf b) .nil, buildSimple_ok b, ?_⟩
  show simpleRender (fragOf b) = claimRender b
  exact render_eq b h1 h2 h3

/-- Claim C1 witness: a full build with all six fragment kinds. -/
theorem claim_C1_witness :
    okOpt (some "main") = true ∧ okOpt (some "href") = true ∧
    okOpt (some "first-line") = true ∧
    ∃ n, buildSimple ⟨some "a", some "main", ["x", "y"], some "href",
        ["hover"], some "first-line"⟩ = .ok n ∧
      n.stringify = claimRender ⟨some "a", some "main", ["x", "y"],
        some "href", ["hover"], some "first-line"⟩ :=
  ⟨rfl, rfl, rfl,
    claim_C1_amended ⟨some "a", some "main", ["x", "y"], some "href",
      ["hover"], some "first-line"⟩ rfl rfl rfl⟩

/-- `dropWhile` skips a matching head. -/
theorem dropWhile_cons_true {p : Char → Bool} {x : Char} {xs : List Char}
    (h : p x = true) : List.dropWhile p (x :: xs) = List.dropWhile p xs := by
  simp [List.dropWhile, h]

/-- `dropWhile` stops at a non-matching head. -/
theorem dropWhile_cons_false {p : Char → Bool} {x : Char} {xs : List Char}
    (h : p x = false) : List.dropWhile p (x :: xs) = x :: xs := by
  simp [List.dropWhile, h]

/-- Trimming the three leading spaces produced by the `stringify` reduce:
when the left text starts with a non-whitespace character and the right
text ends with one, `trim` removes exactly the three leading spaces. -/
theorem trim_keeps (a0 b0 : Char) (A' B' c B : List Char)
    (ha : isJsWs a0 = false) (hB : B.reverse = b0 :: B')
    (hb : isJsWs b0 = false) :
    trimChars (' ' :: ' ' :: ' ' :: ((a0 :: A') ++ ' ' :: (c ++ ' ' :: B))) =
      (a0 :: A') ++ ' ' :: (c ++ ' ' :: B) := by
  have hsp : isJsWs ' ' = true := by decide
  unfold trimChars
  have h1 : List.dropWhile isJsWs
      (' ' :: ' ' :: ' ' :: ((a0 :: A') ++ ' ' :: (c ++ ' ' :: B))) =
      (a0 :: A') ++ ' ' :: (c ++ ' ' :: B) := by
    rw [dropWhile_cons_true hsp, dropWhile_cons_true hsp, dropWhile_cons_true hsp]
    exact dropWhile_cons_false ha
  rw [h1]
  have hsplit : (a0 :: A') ++ ' ' :: (c ++ ' ' :: B) =
      ((a0 :: A') ++ ' ' :: (c ++ [' '])) ++ B := by
    simp [List.append_assoc]
  rw [hsplit, List.reverse_append, hB]
  have h2 : List.dropWhile isJsWs
      ((b0 :: B') ++ ((a0 :: A') ++ ' ' :: (c ++ [' '])).reverse) =
      (b0 :: B') ++ ((a0 :: A') ++ ' ' :: (c ++ [' '])).reverse :=
    dropWhile_cons_false hb
  rw [h2]
  rw [← hB, ← List.reverse_append, List.reverse_reverse]

/-- A string starting with a space is non-empty. -/
theorem space_append_ne (s : String) : ¬ (" " ++ s) = "" := by
  intro h
  have hd := congrArg String.data h
  simp [String.data_append] at hd

/-- A string of the shape `(" " ++ s) ++ t ++ u` is non-empty. -/
theorem space_append_ne2 (s t u : String) : ¬ ((" " ++ s) ++ t ++ u) = "" := by
  intro h
  have hd := congrArg String.data h
  simp [String.data_append] at hd

/-- Claim C2 (counterexample): with `b` the node built by `element('')`
(which stringifies to the empty string), `combine(a, '+', b).stringify()`
is `"a +"`, not `a.stringify() + ' + ' + b.stringify() = "a + "` — the
final `trim()` eats the boundary space. -/
theorem claim_C2_counterexample :
    cssSelectorBuilder.element "a" =
      .ok (.mk ⟨some "a", none, none, none, [], []⟩ .nil) ∧
    cssSelectorBuilder.element "" =
      .ok (.mk ⟨some "", none, none, none, [], []⟩ .nil) ∧
    (cssSelectorBuilder.combine (.mk ⟨some "a", none, none, none, [], []⟩ .nil)
        "+" (.mk ⟨some "", none, none, none, [], []⟩ .nil)).stringify = "a +" ∧
    (MyCssSelector.mk ⟨some "a", none, none, none, [], []⟩ .nil).stringify ++
        " " ++ "+" ++ " " ++
        (MyCssSelector.mk ⟨some "", none, none, none, [], []⟩ .nil).stringify =
      "a + " ∧
    ("a +" : String) ≠ "a + " :=
  ⟨rfl, rfl, by decide, by decide, by decide⟩

/-- Claim C2 (amended): for all nodes `a`, `b` and every combinator
string `c`, provided `a.stringify()` does not begin with whitespace and
`b.stringify()` does not end with whitespace (both non-empty),
`combine(a, c, b).stringify()` equals
`a.stringify() + ' ' + c + ' ' + b.stringify()` with the combinator text
reproduced exactly — in particular nested combinations flatten to the
left-to-right chain, with three spaces when `c` is itself a single
space.  (Without the proviso the final `trim()` of the reduce can eat
boundary whitespace, see the counterexample.) -/
theorem claim_C2_amended (a b : MyCssSelector) (c : String)
    (ha : noLeadWs a.stringify = true) (hb : noTrailWs b.stringify = true) :
    (cssSelectorBuilder.combine a c b).stringify =
      a.stringify ++ " " ++ c ++ " " ++ b.stringify := by
  have e1 : joinStep "" a.stringify = " " ++ a.stringify := by
    simp [joinStep]
  have hne1 : ¬ (" " ++ a.stringify) = "" := space_append_ne _
  have e2 : joinStep (" " ++ a.stringify) c =
      (" " ++ (" " ++ a.stringify)) ++ " " ++ c := by
    simp [joinStep, hne1]
  have hne2 : ¬ ((" " ++ (" " ++ a.stringify)) ++ " " ++ c) = "" :=
    space_append_ne2 _ _ _
  have e3 : joinStep ((" " ++ (" " ++ a.stringify)) ++ " " ++ c) b.stringify =
      (" " ++ ((" " ++ (" " ++ a.stringify)) ++ " " ++ c)) ++ " " ++ b.stringify := by
    simp [joinStep, hne2]
  have hfold : foldSubs (.sel a (.comb c (.sel b .nil))) "" =
      (" " ++ ((" " ++ (" " ++ a.stringify)) ++ " " ++ c)) ++ " " ++ b.stringify := by
    show foldSubs (.comb c (.sel b .nil)) (joinStep "" a.stringify) = _
    rw [e1]
    show foldSubs (.sel b .nil) (joinStep (" " ++ a.stringify) c) = _
    rw [e2]
    show foldSubs .nil
        (joinStep ((" " ++ (" " ++ a.stringify)) ++ " " ++ c) b.stringify) = _
    rw [e3]
    rfl
  show jsTrim (foldSubs (.sel a (.comb c (.sel b .nil))) "") = _
  rw [hfold]
  obtain ⟨a0, A', hA⟩ : ∃ a0 A', a.stringify.data = a0 :: A' := by
    unfold noLeadWs at ha
    rcases hd : a.stringify.data with _ | ⟨a0, A'⟩
    · rw [hd] at ha; cases ha
    · exact ⟨a0, A', rfl⟩
  have ha0 : isJsWs a0 = false := by
    unfold noLeadWs at ha
    rw [hA] at ha
    simpa using ha
  obtain ⟨b0, B', hRB⟩ : ∃ b0 B', b.stringify.data.reverse = b0 :: B' := by
    unfold noTrailWs at hb
    rcases hd : b.stringify.data.reverse with _ | ⟨b0, B'⟩
    · rw [hd] at hb; cases hb
    · exact ⟨b0, B', rfl⟩
  have hb0 : isJsWs b0 = false := by
    unfold noTrailWs at hb
    rw [hRB] at hb
    simpa using hb
  apply String.ext
  show trimChars _ = _
  have hdata : ((" " ++ ((" " ++ (" " ++ a.stringify)) ++ " " ++ c)) ++ " " ++
      b.stringify).data =
      ' ' :: ' ' :: ' ' :: ((a0 :: A') ++ ' ' :: (c.data ++ ' ' :: b.stringify.data)) := by
    simp [String.data_append, hA]
  rw [hdata, trim_keeps a0 b0 A' B' c.data b.stringify.data ha0 hRB hb0]
  simp [String.data_append, hA]

/-- Claim C2 witness: `combine(element('a'), '+', element('b'))`. -/
theorem claim_C2_witness :
    noLeadWs (MyCssSelector.mk ⟨some "a", none, none, none, [], []⟩ .nil).stringify = true ∧
    noTrailWs (MyCssSelector.mk ⟨some "b", none, none, none, [], []⟩ .nil).stringify = true ∧
    (cssSelectorBuilder.combine (.mk ⟨some "a", none, none, none, [], []⟩ .nil)
        "+" (.mk ⟨some "b", none, none, none, [], []⟩ .nil)).stringify =
      (MyCssSelector.mk ⟨some "a", none, none, none, [], []⟩ .nil).stringify ++
        " " ++ "+" ++ " " ++
        (MyCssSelector.mk ⟨some "b", none, none, none, [], []⟩ .nil).stringify :=
  ⟨by decide, by decide,
    claim_C2_amended (.mk ⟨some "a", none, none, none, [], []⟩ .nil)
      (.mk ⟨some "b", none, none, none, [], []⟩ .nil) "+" (by decide) (by decide)⟩

/-- A facade fragment entry point always returns a node with an empty
`subBuilders` array. -/
theorem facade_subnil (g : Frag → String → Except SelErr Unit × Frag) :
    ∀ v n, callResult (liftFrag g MyCssSelector.new v) = .ok n →
      n.subBuilders = .nil := by
  intro v n h
  unfold callResult liftFrag at h
  rcases hp : g MyCssSelector.new.frag v with ⟨res, f'⟩
  rw [hp] at h
  cases res with
  | ok u =>
    simp at h
    rw [← h]
    rfl
  | error e => simp at h

/-- A fragment method never touches the `subBuilders` array. -/
theorem liftFrag_subs (g : Frag → String → Except SelErr Unit × Frag)
    (n : MyCssSelector) (v : String) :
    ((liftFrag g n v).2).subBuilders = n.subBuilders := by
  unfold liftFrag
  rcases hp : g n.frag v with ⟨res, f'⟩
  rfl

/-- Claim C5 (counterexample): `element('div')` called on the node
returned by `combine(element('a'), '+', element('b'))` succeeds, leaving
a reachable node with a populated fragment field *and* a non-empty
`subBuilders` array. -/
theorem claim_C5_counterexample :
    cssSelectorBuilder.element "a" =
      .ok (.mk ⟨some "a", none, none, none, [], []⟩ .nil) ∧
    cssSelectorBuilder.element "b" =
      .ok (.mk ⟨some "b", none, none, none, [], []⟩ .nil) ∧
    cssSelectorBuilder.combine (.mk ⟨some "a", none, none, none, [], []⟩ .nil)
        "+" (.mk ⟨some "b", none, none, none, [], []⟩ .nil) =
      .mk Frag.empty
        (.sel (.mk ⟨some "a", none, none, none, [], []⟩ .nil)
          (.comb "+" (.sel (.mk ⟨some "b", none, none, none, [], []⟩ .nil) .nil))) ∧
    ((MyCssSelector.mk Frag.empty
        (.sel (.mk ⟨some "a", none, none, none, [], []⟩ .nil)
          (.comb "+" (.sel (.mk ⟨some "b", none, none, none, [], []⟩ .nil) .nil)))).element
        "div").1 = .ok () ∧
    hasFragment
      ((MyCssSelector.mk Frag.empty
        (.sel (.mk ⟨some "a", none, none, none, [], []⟩ .nil)
          (.comb "+" (.sel (.mk ⟨some "b", none, none, none, [], []⟩ .nil) .nil)))).element
        "div").2.frag = true ∧
    ((MyCssSelector.mk Frag.empty
        (.sel (.mk ⟨some "a", none, none, none, [], []⟩ .nil)
          (.comb "+" (.sel (.mk ⟨some "b", none, none, none, [], []⟩ .nil) .nil)))).element
        "div").2.subBuilders.isNil = false :=
  ⟨rfl, rfl, rfl, rfl, rfl, rfl⟩

/-- Claim C5 (amended): every facade fragment entry point returns a
simple node (empty `subBuilders`), facade `combine` returns a
fragment-free combinator node holding exactly the pushed triple, fluent
fragment methods never touch `subBuilders`, and `combine` never touches
the fragment fields.  Hence the simple/combinator dichotomy holds along
chains that do not mix the two call families; mixing them — a fragment
method on a combinator node or `combine` on a fragment-bearing node — is
permitted by the code and produces a hybrid node (see the
counterexample). -/
theorem claim_C5_amended :
    (∀ v n, cssSelectorBuilder.element v = .ok n → n.subBuilders = .nil) ∧
    (∀ v n, cssSelectorBuilder.id v = .ok n → n.subBuilders = .nil) ∧
    (∀ v n, cssSelectorBuilder.addClass v = .ok n → n.subBuilders = .nil) ∧
    (∀ v n, cssSelectorBuilder.attr v = .ok n → n.subBuilders = .nil) ∧
    (∀ v n, cssSelectorBuilder.pseudoClass v = .ok n → n.subBuilders = .nil) ∧
    (∀ v n, cssSelectorBuilder.pseudoElement v = .ok n → n.subBuilders = .nil) ∧
    (∀ s1 c s2, (cssSelectorBuilder.combine s1 c s2).frag = Frag.empty ∧
      (cssSelectorBuilder.combine s1 c s2).subBuilders =
        .sel s1 (.comb c (.sel s2 .nil))) ∧
    (∀ n v, ((MyCssSelector.element n v).2).subBuilders = n.subBuilders) ∧
    (∀ n v, ((MyCssSelector.id n v).2).subBuilders = n.subBuilders) ∧
    (∀ n v, ((MyCssSelector.addClass n v).2).subBuilders = n.subBuilders) ∧
    (∀ n v, ((MyCssSelector.attr n v).2).subBuilders = n.subBuilders) ∧
    (∀ n v, ((MyCssSelector.pseudoClass n v).2).subBuilders = n.subBuilders) ∧
    (∀ n v, ((MyCssSelector.pseudoElement n v).2).subBuilders = n.subBuilders) ∧
    (∀ n s1 c s2, (MyCssSelector.combine n s1 c s2).frag = n.frag) :=
  ⟨facade_subnil _, facade_subnil _, facade_subnil _, facade_subnil _,
   facade_subnil _, facade_subnil _,
   fun _ _ _ => ⟨rfl, rfl⟩,
   liftFrag_subs _, liftFrag_subs _, liftFrag_subs _, liftFrag_subs _,
   liftFrag_subs _, liftFrag_subs _,
   fun _ _ _ _ => rfl⟩

/-- Claim C5 witness: the node built by `element('a')` is simple. -/
theorem claim_C5_witness :
    (MyCssSelector.mk ⟨some "a", none, none, none, [], []⟩ .nil).subBuilders = .nil :=
  claim_C5_amended.1 "a" (.mk ⟨some "a", none, none, none, [], []⟩ .nil) rfl

/-- A fragment method call on reference `r` changes no other heap
entry. -/
theorem updH_frame (h : Heap) (r : Nat) (g : Frag → Except SelErr Unit × Frag)
    (i : Nat) (hne : i ≠ r) : ((updH h r g).2)[i]? = h[i]? := by
  unfold updH
  cases hr : h[r]? with
  | none => rfl
  | some nd =>
    rcases hp : g nd.frag with ⟨res, f'⟩
    exact List.getElem?_set_ne (Ne.symm hne)

/-- Allocating at the end of the heap changes no existing entry. -/
theorem append_frame (h : Heap) (x : NodeH) (i : Nat) (hi : i < h.length) :
    (h ++ [x])[i]? = h[i]? :=
  List.getElem?_append_left hi

/-- A facade fragment entry point returns the fresh reference
`h.length` and leaves every existing entry unchanged. -/
theorem facadeFragH_frame (g : Frag → Except SelErr Unit × Frag) (h : Heap)
    (i : Nat) (hi : i < h.length) :
    (facadeFragH g h).2 = h.length ∧
    ((facadeFragH g h).1.2)[i]? = h[i]? := by
  refine ⟨rfl, ?_⟩
  show ((updH (h ++ [NodeH.new]) h.length g).2)[i]? = h[i]?
  rw [updH_frame (h ++ [NodeH.new]) h.length g i (by omega)]
  exact append_frame h NodeH.new i hi

/-- `combine` on reference `r` changes no other heap entry. -/
theorem combineMH_frame (h : Heap) (r r1 : Nat) (c : String) (r2 : Nat)
    (i : Nat) (hne : i ≠ r) : (combineMH h r r1 c r2)[i]? = h[i]? := by
  unfold combineMH
  cases hr : h[r]? with
  | none => rfl
  | some nd => exact List.getElem?_set_ne (Ne.symm hne)

/-- Claim C7 (counterexample): `combine` stores *references* to its
children, so a fluent call on one chain is observable through another:
after `d = combine(element('a'), '+', element('b'))` renders `"a + b"`,
the call `class('x')` on the first child changes `d.stringify()` to
`"a.x + b"`. -/
theorem claim_C7_counterexample :
    facElementH [] "a" =
      ((.ok (), [⟨⟨some "a", none, none, none, [], []⟩, []⟩]), 0) ∧
    facElementH [⟨⟨some "a", none, none, none, [], []⟩, []⟩] "b" =
      ((.ok (), [⟨⟨some "a", none, none, none, [], []⟩, []⟩,
                 ⟨⟨some "b", none, none, none, [], []⟩, []⟩]), 1) ∧
    facCombineH [⟨⟨some "a", none, none, none, [], []⟩, []⟩,
                 ⟨⟨some "b", none, none, none, [], []⟩, []⟩] 0 "+" 1 =
      ([⟨⟨some "a", none, none, none, [], []⟩, []⟩,
        ⟨⟨some "b", none, none, none, [], []⟩, []⟩,
        ⟨Frag.empty, [.inl 0, .inr "+", .inl 1]⟩], 2) ∧
    stringifyH 5 [⟨⟨some "a", none, none, none, [], []⟩, []⟩,
                  ⟨⟨some "b", none, none, none, [], []⟩, []⟩,
                  ⟨Frag.empty, [.inl 0, .inr "+", .inl 1]⟩] 2 = "a + b" ∧
    addClassH [⟨⟨some "a", none, none, none, [], []⟩, []⟩,
               ⟨⟨some "b", none, none, none, [], []⟩, []⟩,
               ⟨Frag.empty, [.inl 0, .inr "+", .inl 1]⟩] 0 "x" =
      (.ok (), [⟨⟨some "a", none, none, none, ["x"], []⟩, []⟩,
                ⟨⟨some "b", none, none, none, [], []⟩, []⟩,
                ⟨Frag.empty, [.inl 0, .inr "+", .inl 1]⟩]) ∧
    stringifyH 5 [⟨⟨some "a", none, none, none, ["x"], []⟩, []⟩,
                  ⟨⟨some "b", none, none, none, [], []⟩, []⟩,
                  ⟨Frag.empty, [.inl 0, .inr "+", .inl 1]⟩] 2 = "a.x + b" ∧
    ("a.x + b" : String) ≠ "a + b" := by
  refine ⟨rfl, rfl, rfl, by decide, rfl, by decide, by decide⟩

/-- Claim C7 (amended): every facade call returns a freshly created
node — the returned reference is the previously unallocated `h.length`
and every existing heap entry is untouched — and every fluent method
call mutates only its receiver's heap entry.  However, the node created
by `combine` holds *references* to its two children, so a later fluent
call on a child (its own entry) is observable through the combined
node's `stringify()`; chains only remain independent while no node of
one is reachable from the other (see the counterexample). -/
theorem claim_C7_amended :
    (∀ h v i, i < List.length h →
      (facElementH h v).2 = h.length ∧ ((facElementH h v).1.2)[i]? = h[i]?) ∧
    (∀ h v i, i < List.length h →
      (facIdH h v).2 = h.length ∧ ((facIdH h v).1.2)[i]? = h[i]?) ∧
    (∀ h v i, i < List.length h →
      (facAddClassH h v).2 = h.length ∧ ((facAddClassH h v).1.2)[i]? = h[i]?) ∧
    (∀ h v i, i < List.length h →
      (facAttrH h v).2 = h.length ∧ ((facAttrH h v).1.2)[i]? = h[i]?) ∧
    (∀ h v i, i < List.length h →
      (facPseudoClassH h v).2 = h.length ∧
        ((facPseudoClassH h v).1.2)[i]? = h[i]?) ∧
    (∀ h v i, i < List.length h →
      (facPseudoElementH h v).2 = h.length ∧
        ((facPseudoElementH h v).1.2)[i]? = h[i]?) ∧
    (∀ h r1 c r2 i, i < List.length h →
      (facCombineH h r1 c r2).2 = h.length ∧
        ((facCombineH h r1 c r2).1)[i]? = h[i]?) ∧
    (∀ h r v i, i ≠ r → ((elementH h r v).2)[i]? = h[i]?) ∧
    (∀ h r v i, i ≠ r → ((idH h r v).2)[i]? = h[i]?) ∧
    (∀ h r v i, i ≠ r → ((addClassH h r v).2)[i]? = h[i]?) ∧
    (∀ h r v i, i ≠ r → ((attrH h r v).2)[i]? = h[i]?) ∧
    (∀ h r v i, i ≠ r → ((pseudoClassH h r v).2)[i]? = h[i]?) ∧
    (∀ h r v i, i ≠ r → ((pseudoElementH h r v).2)[i]? = h[i]?) ∧
    (∀ h r r1 c r2 i, i ≠ r → (combineMH h r r1 c r2)[i]? = h[i]?) := by
  refine ⟨fun h v i hi => facadeFragH_frame _ h i hi,
    fun h v i hi => facadeFragH_frame _ h i hi,
    fun h v i hi => facadeFragH_frame _ h i hi,
    fun h v i hi => facadeFragH_frame _ h i hi,
    fun h v i hi => facadeFragH_frame _ h i hi,
    fun h v i hi => facadeFragH_frame _ h i hi,
    fun h r1 c r2 i hi => ⟨rfl, ?_⟩,
    fun h r v i hne => updH_frame _ _ _ _ hne,
    fun h r v i hne => updH_frame _ _ _ _ hne,
    fun h r v i hne => updH_frame _ _ _ _ hne,
    fun h r v i hne => updH_frame _ _ _ _ hne,
    fun h r v i hne => updH_frame _ _ _ _ hne,
    fun h r v i hne => updH_frame _ _ _ _ hne,
    fun h r r1 c r2 i hne => combineMH_frame h r r1 c r2 i hne⟩
  show (combineMH (h ++ [NodeH.new]) h.length r1 c r2)[i]? = h[i]?
  rw [combineMH_frame (h ++ [NodeH.new]) h.length r1 c r2 i (by omega)]
  exact append_frame h NodeH.new i hi

/-- Claim C7 witness: a fluent `element` call on reference 0 leaves the
entry at reference 1 unchanged. -/
theorem claim_C7_witness :
    ((elementH [⟨Frag.empty, []⟩, ⟨⟨some "b", none, none, none, [], []⟩, []⟩]
        0 "z").2)[1]? =
      ([⟨Frag.empty, []⟩, ⟨⟨some "b", none, none, none, [], []⟩, []⟩] : Heap)[1]? :=
  claim_C7_amended.2.2.2.2.2.2.2.1
    [⟨Frag.empty, []⟩, ⟨⟨some "b", none, none, none, [], []⟩, []⟩] 0 "z" 1
    (by decide)

/-- `Char.ofNat` of a value below the surrogate range round-trips through
`toNat`. -/
theorem charOfNat_toNat (m : Nat) (hm : m < 0xd800) : (Char.ofNat m).toNat = m := by
  have hv : m.isValidChar := Or.inl hm
  rw [Char.ofNat, dif_pos hv]
  simp [Char.ofNatAux, Char.toNat, UInt32.toNat, BitVec.toNat_ofNatLt]

/-- The decimal digit characters have the expected code points. -/
theorem digitCh_toNat (d : Nat) (hd : d < 10) : (digitCh d).toNat = 48 + d :=
  charOfNat_toNat (48 + d) (by omega)

/-- `natDigits` never returns the empty list. -/
theorem natDigits_ne_nil (n : Nat) : natDigits n ≠ [] := by
  unfold natDigits
  split
  · simp
  · simp

/-- Every character `natDigits` produces is a decimal digit. -/
theorem natDigits_all_digits (n : Nat) :
    ∀ c ∈ natDigits n, isDigitCh c = true := by
  induction n using Nat.strong_induction_on with
  | _ n ih =>
    unfold natDigits
    split
    · intro c hc
      simp at hc
      subst hc
      simp [isDigitCh, digitCh_toNat n (by omega)]
      omega
    · intro c hc
      simp at hc
      rcases hc with hc | hc
      · exact ih (n / 10) (Nat.div_lt_self (by omega) (by omega)) c hc
      · subst hc
        simp [isDigitCh, digitCh_toNat (n % 10) (by omega)]
        omega

/-- Folding the decimal digits of `n` back reconstructs `n`. -/
theorem natDigits_val (n : Nat) :
    (natDigits n).foldl (fun a c => a * 10 + (c.toNat - 48)) 0 = n := by
  induction n using Nat.strong_induction_on with
  | _ n ih =>
    unfold natDigits
    split
    · simp [digitCh_toNat n (by omega)]
    · rw [List.foldl_append]
      rw [ih (n / 10) (Nat.div_lt_self (by omega) (by omega))]
      simp [digitCh_toNat (n % 10) (by omega)]
      omega

/-- `takeWhile` takes exactly a digit prefix when the continuation does
not start with a digit. -/
theorem takeWhile_digits (l r : List Char)
    (hl : ∀ c ∈ l, isDigitCh c = true) (hr : goodTail r = true) :
    (l ++ r).takeWhile isDigitCh = l ∧ (l ++ r).dropWhile isDigitCh = r := by
  induction l with
  | nil =>
    simp only [List.nil_append]
    cases r with
    | nil => exact ⟨rfl, rfl⟩
    | cons c t =>
      unfold goodTail at hr
      simp at hr
      constructor
      · simp [List.takeWhile, hr]
      · simp [List.dropWhile, hr]
  | cons c t ih =>
    have hc : isDigitCh c = true := hl c (by simp)
    have ht : ∀ x ∈ t, isDigitCh x = true := fun x hx => hl x (by simp [hx])
    obtain ⟨h1, h2⟩ := ih ht
    constructor
    · simp [List.takeWhile, hc, h1]
    · simp [List.dropWhile, hc, h2]

/-- `parseNat` reads back exactly an emitted numeral. -/
theorem parseNat_natDigits (n : Nat) (rest : List Char)
    (hrest : goodTail rest = true) :
    parseNat (natDigits n ++ rest) = some (n, rest) := by
  obtain ⟨h1, h2⟩ := takeWhile_digits (natDigits n) rest (natDigits_all_digits n) hrest
  unfold parseNat
  rw [h1, h2]
  have hne : (natDigits n).isEmpty = false := by
    cases hd : natDigits n with
    | nil => exact absurd hd (natDigits_ne_nil n)
    | cons c t => rfl
  simp [hne, natDigits_val n]

/-- `parseNumber` on a list not starting with a minus sign parses an
unsigned numeral. -/
theorem parseNumber_not_neg {c : Char} {X : List Char} (hc : ¬ c = '-') :
    parseNumber (c :: X) =
      (match parseNat (c :: X) with
       | some (m, r) => some ((m : Int), r)
       | none => none) := by
  unfold parseNumber
  split
  · rename_i heq
    injection heq with h1 h2
    exact absurd h1 hc
  · rfl

/-- A digit character differs from any non-digit character. -/
theorem digit_ne {c : Char} (hc : isDigitCh c = true) (d : Char)
    (hd : isDigitCh d = false) : ¬ c = d := by
  intro h
  subst h
  rw [hc] at hd
  cases hd

/-- `parseNumber` reads back exactly an emitted integer numeral. -/
theorem parseNumber_intChars (n : Int) (rest : List Char)
    (hrest : goodTail rest = true) :
    parseNumber (intChars n ++ rest) = some (n, rest) := by
  unfold intChars
  split
  · rename_i hneg
    show parseNumber ('-' :: (natDigits n.natAbs ++ rest)) = _
    show (match parseNat (natDigits n.natAbs ++ rest) with
          | some (m, r) => some (-(m : Int), r)
          | none => none) = some (n, rest)
    rw [parseNat_natDigits n.natAbs rest hrest]
    have : ((n.natAbs : Int)) = -n := by omega
    simp [this]
  · rename_i hpos
    obtain ⟨c, cs, hcons⟩ := List.exists_cons_of_ne_nil (natDigits_ne_nil n.toNat)
    have hdig : isDigitCh c = true :=
      natDigits_all_digits n.toNat c (by rw [hcons]; simp)
    rw [hcons]
    show parseNumber (c :: (cs ++ rest)) = _
    rw [parseNumber_not_neg (digit_ne hdig '-' (by decide))]
    have hl : c :: (cs ++ rest) = natDigits n.toNat ++ rest := by
      rw [hcons]
      rfl
    rw [hl, parseNat_natDigits n.toNat rest hrest]
    have : ((n.toNat : Int)) = n := by omega
    simp [this]

/-- `hexVal` inverts `hexDig` on hexadecimal digit values. -/
theorem hexVal_hexDig : ∀ d < 16, hexVal (hexDig d) = some d := by
  decide


/-- The string-body parser inverts `escChar`-escaping: decoding an
escaped character sequence followed by the closing quote returns the
original characters. -/
theorem parseStrAux_esc (cs : List Char) :
    ∀ rest : List Char,
      parseStrAux (cs.flatMap escChar ++ '"' :: rest) = some (cs, rest) := by
  induction cs with
  | nil =>
    intro rest
    show parseStrAux ('"' :: rest) = some ([], rest)
    rfl
  | cons c t ih =>
    intro rest
    have hflat : (c :: t).flatMap escChar ++ '"' :: rest =
        escChar c ++ (t.flatMap escChar ++ '"' :: rest) := by
      simp [List.flatMap_cons, List.append_assoc]
    rw [hflat]
    by_cases h1 : c = '"'
    · subst h1
      show consStr '"' (parseStrAux (t.flatMap escChar ++ '"' :: rest)) = _
      rw [ih rest]
      rfl
    · by_cases h2 : c = '\\'
      · subst h2
        show consStr '\\' (parseStrAux (t.flatMap escChar ++ '"' :: rest)) = _
        rw [ih rest]
        rfl
      · by_cases h3 : c = '\x08'
        · subst h3
          show consStr '\x08' (parseStrAux (t.flatMap escChar ++ '"' :: rest)) = _
          rw [ih rest]
          rfl
        · by_cases h4 : c = '\x0c'
          · subst h4
            show consStr '\x0c' (parseStrAux (t.flatMap escChar ++ '"' :: rest)) = _
            rw [ih rest]
            rfl
          · by_cases h5 : c = '\n'
            · subst h5
              show consStr '\n' (parseStrAux (t.flatMap escChar ++ '"' :: rest)) = _
              rw [ih rest]
              rfl
            · by_cases h6 : c = '\r'
              · subst h6
                show consStr '\r' (parseStrAux (t.flatMap escChar ++ '"' :: rest)) = _
                rw [ih rest]
                rfl
              · by_cases h7 : c = '\t'
                · subst h7
                  show consStr '\t' (parseStrAux (t.flatMap escChar ++ '"' :: rest)) = _
                  rw [ih rest]
                  rfl
                · by_cases h8 : c.toNat < 0x20
                  · have hesc : escChar c = ['\\', 'u', '0', '0',
                        hexDig (c.toNat / 16), hexDig (c.toNat % 16)] := by
                      unfold escChar
                      rw [if_neg h1, if_neg h2, if_neg h3, if_neg h4, if_neg h5,
                        if_neg h6, if_neg h7, if_pos h8]
                    rw [hesc]
                    show ((hexVal (hexDig (c.toNat / 16))).bind fun c2 =>
                        (hexVal (hexDig (c.toNat % 16))).bind fun d =>
                          if 0xd800 ≤ ((0 * 16 + 0) * 16 + c2) * 16 + d ∧
                              ((0 * 16 + 0) * 16 + c2) * 16 + d < 0xe000 then none
                          else consStr (Char.ofNat (((0 * 16 + 0) * 16 + c2) * 16 + d))
                            (parseStrAux (t.flatMap escChar ++ '"' :: rest))) =
                      some (c :: t, rest)
                    rw [hexVal_hexDig (c.toNat / 16) (by omega),
                      hexVal_hexDig (c.toNat % 16) (by omega)]
                    show (if 0xd800 ≤ ((0 * 16 + 0) * 16 + c.toNat / 16) * 16 +
                          c.toNat % 16 ∧ ((0 * 16 + 0) * 16 + c.toNat / 16) * 16 +
                          c.toNat % 16 < 0xe000 then none
                        else consStr (Char.ofNat (((0 * 16 + 0) * 16 + c.toNat / 16) *
                          16 + c.toNat % 16))
                          (parseStrAux (t.flatMap escChar ++ '"' :: rest))) =
                      some (c :: t, rest)
                    rw [if_neg (by omega)]
                    have hcode : ((0 * 16 + 0) * 16 + c.toNat / 16) * 16 +
                        c.toNat % 16 = c.toNat := by omega
                    rw [hcode, Char.ofNat_toNat, ih rest]
                    rfl
                  · have hesc : escChar c = [c] := by
                      unfold escChar
                      rw [if_neg h1, if_neg h2, if_neg h3, if_neg h4, if_neg h5,
                        if_neg h6, if_neg h7, if_neg h8]
                    rw [hesc]
                    show parseStrAux (c :: (t.flatMap escChar ++ '"' :: rest)) =
                      some (c :: t, rest)
                    rw [parseStrAux]
                    rw [if_neg h1, if_neg h2, if_neg h8, ih rest]
                    rfl

/-- Simultaneous structural induction over the three JSON value types. -/
theorem jval_induction (P : JVal → Prop) (Q : JArr → Prop) (R : JObj → Prop)
    (hnull : P .jnull) (hbool : ∀ b, P (.jbool b)) (hnum : ∀ n, P (.jnum n))
    (hstr : ∀ s, P (.jstr s)) (harr : ∀ xs, Q xs → P (.jarr xs))
    (hobj : ∀ ms, R ms → P (.jobj ms)) (qnil : Q .nil)
    (qcons : ∀ v xs, P v → Q xs → Q (.cons v xs)) (rnil : R .nil)
    (rcons : ∀ k v ms, P v → R ms → R (.cons k v ms)) :
    (∀ v, P v) ∧ (∀ xs, Q xs) ∧ (∀ ms, R ms) :=
  ⟨fun v => @JVal.rec P Q R hnull hbool hnum hstr harr hobj qnil qcons rnil rcons v,
   fun xs => @JArr.rec P Q R hnull hbool hnum hstr harr hobj qnil qcons rnil rcons xs,
   fun ms => @JObj.rec P Q R hnull hbool hnum hstr harr hobj qnil qcons rnil rcons ms⟩

/-- The fuel measures are positive. -/
theorem jNeed_pos : ∀ v : JVal, 1 ≤ jNeed v := by
  intro v
  cases v <;> simp [jNeed]

/-- The array fuel measure is positive. -/
theorem jNeedArr_pos : ∀ xs : JArr, 1 ≤ jNeedArr xs := by
  intro xs
  cases xs <;> simp [jNeedArr]

/-- The object fuel measure is positive. -/
theorem jNeedObj_pos : ∀ ms : JObj, 1 ≤ jNeedObj ms := by
  intro ms
  cases ms <;> simp [jNeedObj]

/-- The fuel needed to parse an emitted text is at most its length plus
one (each nesting step of the emitted syntax adds at least one
character). -/
theorem jNeed_le_emit :
    (∀ v, jNeed v ≤ (emitVal v).length + 1) ∧
    (∀ xs, jNeedArr xs ≤ (emitArrItems xs).length + 2) ∧
    (∀ ms, jNeedObj ms ≤ (emitObjItems ms).length + 2) := by
  apply jval_induction
  · simp [jNeed, emitVal]
  · intro b
    cases b <;> simp [jNeed, emitVal]
  · intro n
    simp [jNeed]
  · intro s
    simp [jNeed]
  · intro xs hxs
    simp [jNeed, emitVal] at *
    omega
  · intro ms hms
    simp [jNeed, emitVal] at *
    omega
  · simp [jNeedArr, emitArrItems]
  · intro v xs hv hxs
    cases xs with
    | nil =>
      simp [jNeedArr, emitArrItems] at *
      omega
    | cons w ws =>
      simp [jNeedArr, emitArrItems] at *
      omega
  · simp [jNeedObj, emitObjItems]
  · intro k v ms hv hms
    cases ms with
    | nil =>
      simp [jNeedObj, emitObjItems, escString] at *
      omega
    | cons k2 v2 ms2 =>
      simp [jNeedObj, emitObjItems, escString] at *
      omega

/-- Every emitted value starts with a character other than `]` (used to
show the empty-array shortcut does not fire on a non-empty array). -/
theorem emit_head_ne_rb (v : JVal) :
    ∃ c cs, emitVal v = c :: cs ∧ ¬ c = ']' := by
  cases v with
  | jnull => exact ⟨'n', _, rfl, by decide⟩
  | jbool b =>
    cases b
    · exact ⟨'f', _, rfl, by decide⟩
    · exact ⟨'t', _, rfl, by decide⟩
  | jnum n =>
    by_cases hn : n < 0
    · exact ⟨'-', natDigits n.natAbs, by simp [emitVal, intChars, hn], by decide⟩
    · obtain ⟨c, cs, hc⟩ := List.exists_cons_of_ne_nil (natDigits_ne_nil n.toNat)
      have hd : isDigitCh c = true :=
        natDigits_all_digits n.toNat c (by rw [hc]; simp)
      exact ⟨c, cs, by simp [emitVal, intChars, hn, hc],
        digit_ne hd ']' (by decide)⟩
  | jstr s => exact ⟨'"', _, rfl, by decide⟩
  | jarr xs => exact ⟨'[', _, rfl, by decide⟩
  | jobj ms => exact ⟨'\x7b', _, rfl, by decide⟩

/-- A numeral's first character fails all the keyword/punctuation tests
of `parseVal`. -/
theorem numStart_ifs (c : Char) (hc : c = '-' ∨ isDigitCh c = true) :
    ¬ c = 'n' ∧ ¬ c = 't' ∧ ¬ c = 'f' ∧ ¬ c = '"' ∧ ¬ c = '[' ∧
      ¬ c = '\x7b' := by
  rcases hc with hc | hc
  · subst hc
    exact ⟨by decide, by decide, by decide, by decide, by decide, by decide⟩
  · exact ⟨digit_ne hc 'n' (by decide), digit_ne hc 't' (by decide),
      digit_ne hc 'f' (by decide), digit_ne hc '"' (by decide),
      digit_ne hc '[' (by decide), digit_ne hc '\x7b' (by decide)⟩

/-- On a numeral start, `parseVal` falls through to the number branch. -/
theorem parseVal_numStart (g : Nat) (c : Char) (tail : List Char)
    (hc : c = '-' ∨ isDigitCh c = true) :
    parseVal (g + 1) (c :: tail) =
      (parseNumber (c :: tail)).map (fun p => (.jnum p.1, p.2)) := by
  obtain ⟨g1, g2, g3, g4, g5, g6⟩ := numStart_ifs c hc
  simp only [parseVal]
  rw [if_neg g1, if_neg g2, if_neg g3, if_neg g4, if_neg g5, if_neg g6]

/-- `parseArrItems` after a value followed by a comma. -/
theorem parseArrItems_comma (g : Nat) (l X : List Char) (v : JVal)
    (h : parseVal g l = some (v, ',' :: X)) :
    parseArrItems (g + 1) l =
      (match parseArrItems g X with
       | some (xs, r3) => some (JArr.cons v xs, r3)
       | none => none) := by
  simp only [parseArrItems]
  rw [h]
  rfl

/-- `parseArrItems` after the last value and the closing bracket. -/
theorem parseArrItems_rb (g : Nat) (l X : List Char) (v : JVal)
    (h : parseVal g l = some (v, ']' :: X)) :
    parseArrItems (g + 1) l = some (.cons v .nil, X) := by
  simp only [parseArrItems]
  rw [h]
  rfl

/-- `parseObjItems` after a parsed key and its colon. -/
theorem parseObjItems_step (g : Nat) (X T : List Char) (k : List Char)
    (hk : parseStrAux X = some (k, ':' :: T)) :
    parseObjItems (g + 1) ('"' :: X) =
      (match parseVal g T with
       | none => none
       | some (v2, r3) =>
         match r3 with
         | ',' :: r4 =>
           (match parseObjItems g r4 with
            | some (ms, r5) => some (JObj.cons ⟨k⟩ v2 ms, r5)
            | none => none)
         | '\x7d' :: r4 => some (JObj.cons ⟨k⟩ v2 .nil, r4)
         | _ => none) := by
  simp only [parseObjItems]
  rw [hk]
  rfl

/-- `parseObjItems` on the last member. -/
theorem parseObjItems_last (g : Nat) (X T R : List Char) (k : List Char)
    (v : JVal) (hk : parseStrAux X = some (k, ':' :: T))
    (hv : parseVal g T = some (v, '\x7d' :: R)) :
    parseObjItems (g + 1) ('"' :: X) = some (.cons ⟨k⟩ v .nil, R) := by
  rw [parseObjItems_step g X T k hk, hv]
  rfl

/-- `parseObjItems` on a member followed by a comma. -/
theorem parseObjItems_more (g : Nat) (X T R : List Char) (k : List Char)
    (v : JVal) (hk : parseStrAux X = some (k, ':' :: T))
    (hv : parseVal g T = some (v, ',' :: R)) :
    parseObjItems (g + 1) ('"' :: X) =
      (match parseObjItems g R with
       | some (ms, r5) => some (JObj.cons ⟨k⟩ v ms, r5)
       | none => none) := by
  rw [parseObjItems_step g X T k hk, hv]
  rfl

/-- Round trip: with sufficient fuel, parsing an emitted JSON text (with
any non-digit-leading continuation) returns exactly the emitted value
and the continuation; likewise for array element lists and object
member lists. -/
theorem parse_emit (f : Nat) :
    (∀ (v : JVal) (rest : List Char), jNeed v ≤ f → goodTail rest = true →
      parseVal f (emitVal v ++ rest) = some (v, rest)) ∧
    (∀ (xs : JArr) (rest : List Char), xs ≠ .nil → jNeedArr xs ≤ f →
      parseArrItems f (emitArrItems xs ++ ']' :: rest) = some (xs, rest)) ∧
    (∀ (ms : JObj) (rest : List Char), ms ≠ .nil → jNeedObj ms ≤ f →
      parseObjItems f (emitObjItems ms ++ '\x7d' :: rest) = some (ms, rest)) := by
  induction f using Nat.strong_induction_on with
  | _ f ih =>
    cases f with
    | zero =>
      refine ⟨?_, ?_, ?_⟩
      · intro v rest h1 _
        exact absurd h1 (by have := jNeed_pos v; omega)
      · intro xs rest _ h2
        exact absurd h2 (by have := jNeedArr_pos xs; omega)
      · intro ms rest _ h2
        exact absurd h2 (by have := jNeedObj_pos ms; omega)
    | succ g =>
      have ihg := ih g (by omega)
      refine ⟨?_, ?_, ?_⟩
      · intro v rest hf hrest
        cases v with
        | jnull => rfl
        | jbool b => cases b <;> rfl
        | jnum n =>
          obtain ⟨c, cs, hc, hstart⟩ :
              ∃ c cs, intChars n = c :: cs ∧ (c = '-' ∨ isDigitCh c = true) := by
            unfold intChars
            split
            · exact ⟨'-', _, rfl, Or.inl rfl⟩
            · obtain ⟨c, cs, hc⟩ :=
                List.exists_cons_of_ne_nil (natDigits_ne_nil n.toNat)
              exact ⟨c, cs, hc,
                Or.inr (natDigits_all_digits _ c (by rw [hc]; simp))⟩
          show parseVal (g + 1) (intChars n ++ rest) = _
          rw [hc, List.cons_append, parseVal_numStart g c (cs ++ rest) hstart,
            ← List.cons_append, ← hc, parseNumber_intChars n rest hrest]
          rfl
        | jstr s =>
          have hx : emitVal (.jstr s) ++ rest =
              '"' :: (s.data.flatMap escChar ++ '"' :: rest) := by
            simp [emitVal, escString]
          rw [hx]
          rw [show parseVal (g + 1) ('"' :: (s.data.flatMap escChar ++ '"' :: rest)) =
            (parseStrAux (s.data.flatMap escChar ++ '"' :: rest)).map
              (fun p => (JVal.jstr ⟨p.1⟩, p.2)) from rfl]
          rw [parseStrAux_esc s.data rest]
          rfl
        | jarr xs =>
          cases xs with
          | nil => rfl
          | cons w ws =>
            have hx : emitVal (.jarr (.cons w ws)) ++ rest =
                '[' :: (emitArrItems (.cons w ws) ++ ']' :: rest) := by
              simp [emitVal]
            rw [hx]
            rw [show parseVal (g + 1)
                ('[' :: (emitArrItems (.cons w ws) ++ ']' :: rest)) =
              (if (emitArrItems (.cons w ws) ++ ']' :: rest).head? = some ']'
               then some (.jarr .nil, (emitArrItems (.cons w ws) ++ ']' :: rest).tail)
               else (parseArrItems g (emitArrItems (.cons w ws) ++ ']' :: rest)).map
                 (fun p => (JVal.jarr p.1, p.2))) from rfl]
            obtain ⟨c, cs, hc, hne⟩ :
                ∃ c cs, emitArrItems (.cons w ws) = c :: cs ∧ ¬ c = ']' := by
              obtain ⟨c0, cs0, hcw, hnew⟩ := emit_head_ne_rb w
              cases ws with
              | nil =>
                exact ⟨c0, cs0,
                  by rw [show emitArrItems (.cons w .nil) = emitVal w from rfl, hcw],
                  hnew⟩
              | cons w2 ws2 =>
                refine ⟨c0, cs0 ++ ',' :: emitArrItems (.cons w2 ws2), ?_, hnew⟩
                rw [show emitArrItems (.cons w (.cons w2 ws2)) =
                  emitVal w ++ ',' :: emitArrItems (.cons w2 ws2) from rfl, hcw]
                rfl
            rw [if_neg (by rw [hc]; simp [hne])]
            rw [ihg.2.1 (.cons w ws) rest (by intro hh; cases hh)
              (by simp [jNeed] at hf; omega)]
            rfl
        | jobj ms =>
          cases ms with
          | nil => rfl
          | cons k w msr =>
            have hx : emitVal (.jobj (.cons k w msr)) ++ rest =
                '\x7b' :: (emitObjItems (.cons k w msr) ++ '\x7d' :: rest) := by
              simp [emitVal]
            rw [hx]
            obtain ⟨Y, hY⟩ : ∃ Y, emitObjItems (.cons k w msr) = '"' :: Y := by
              cases msr with
              | nil =>
                exact ⟨(k.data.flatMap escChar ++ ['"']) ++ ':' :: emitVal w, rfl⟩
              | cons k2 v2 msr2 =>
                exact ⟨(k.data.flatMap escChar ++ ['"']) ++ ':' :: emitVal w ++
                  ',' :: emitObjItems (.cons k2 v2 msr2), rfl⟩
            have hobj := ihg.2.2 (.cons k w msr) rest (by intro hh; cases hh)
              (by simp [jNeed] at hf; omega)
            rw [hY]
            rw [hY] at hobj
            rw [show parseVal (g + 1) ('\x7b' :: (('"' :: Y) ++ '\x7d' :: rest)) =
              (parseObjItems g (('"' :: Y) ++ '\x7d' :: rest)).map
                (fun p => (JVal.jobj p.1, p.2)) from rfl]
            rw [hobj]
            rfl
      · intro xs rest hne hf
        cases xs with
        | nil => exact absurd rfl hne
        | cons v ws =>
          cases ws with
          | nil =>
            show parseArrItems (g + 1)
              (emitArrItems (.cons v .nil) ++ ']' :: rest) = _
            rw [show emitArrItems (.cons v .nil) = emitVal v from rfl]
            have h1 := ihg.1 v (']' :: rest)
              (by simp [jNeedArr] at hf; omega) rfl
            rw [parseArrItems_rb g _ rest v h1]
          | cons w ws2 =>
            show parseArrItems (g + 1)
              (emitArrItems (.cons v (.cons w ws2)) ++ ']' :: rest) = _
            rw [show emitArrItems (.cons v (.cons w ws2)) =
              emitVal v ++ ',' :: emitArrItems (.cons w ws2) from rfl]
            have hx : (emitVal v ++ ',' :: emitArrItems (.cons w ws2)) ++
                ']' :: rest =
                emitVal v ++ ',' :: (emitArrItems (.cons w ws2) ++ ']' :: rest) := by
              simp
            rw [hx]
            have h1 := ihg.1 v (',' :: (emitArrItems (.cons w ws2) ++ ']' :: rest))
              (by simp [jNeedArr] at hf; omega) rfl
            rw [parseArrItems_comma g _ (emitArrItems (.cons w ws2) ++ ']' :: rest)
              v h1]
            rw [ihg.2.1 (.cons w ws2) rest (by intro hh; cases hh)
              (by simp only [jNeedArr] at hf ⊢; omega)]
      · intro ms rest hne hf
        cases ms with
        | nil => exact absurd rfl hne
        | cons k v msr =>
          cases msr with
          | nil =>
            show parseObjItems (g + 1)
              (emitObjItems (.cons k v .nil) ++ '\x7d' :: rest) = _
            rw [show emitObjItems (.cons k v .nil) =
              escString k ++ ':' :: emitVal v from rfl]
            have hx : (escString k ++ ':' :: emitVal v) ++ '\x7d' :: rest =
                '"' :: (k.data.flatMap escChar ++
                  '"' :: (':' :: (emitVal v ++ '\x7d' :: rest))) := by
              simp [escString]
            rw [hx]
            have hk := parseStrAux_esc k.data (':' :: (emitVal v ++ '\x7d' :: rest))
            have hv := ihg.1 v ('\x7d' :: rest)
              (by simp [jNeedObj] at hf; omega) rfl
            rw [parseObjItems_last g _ _ rest k.data v hk hv]
          | cons k2 v2 msr2 =>
            show parseObjItems (g + 1)
              (emitObjItems (.cons k v (.cons k2 v2 msr2)) ++ '\x7d' :: rest) = _
            rw [show emitObjItems (.cons k v (.cons k2 v2 msr2)) =
              escString k ++ ':' :: emitVal v ++
                ',' :: emitObjItems (.cons k2 v2 msr2) from rfl]
            have hx : (escString k ++ ':' :: emitVal v ++
                ',' :: emitObjItems (.cons k2 v2 msr2)) ++ '\x7d' :: rest =
                '"' :: (k.data.flatMap escChar ++
                  '"' :: (':' :: (emitVal v ++
                    ',' :: (emitObjItems (.cons k2 v2 msr2) ++ '\x7d' :: rest)))) := by
              simp [escString]
            rw [hx]
            have hk := parseStrAux_esc k.data
              (':' :: (emitVal v ++
                ',' :: (emitObjItems (.cons k2 v2 msr2) ++ '\x7d' :: rest)))
            have hv := ihg.1 v
              (',' :: (emitObjItems (.cons k2 v2 msr2) ++ '\x7d' :: rest))
              (by simp [jNeedObj] at hf; omega) rfl
            rw [parseObjItems_more g _ _
              (emitObjItems (.cons k2 v2 msr2) ++ '\x7d' :: rest) k.data v hk hv]
            rw [ihg.2.2 (.cons k2 v2 msr2) rest (by intro hh; cases hh)
              (by simp only [jNeedObj] at hf ⊢; omega)]

/-- Claim C8: for every prototype `proto` and every plain object given by
its JSON-representable own fields, `fromJSON(proto, getJSON(obj))`
returns an object whose own fields equal `obj`'s own fields and whose
prototype is `proto` — deserialisation inverts serialisation up to
prototype reattachment. -/
theorem claim_C8 (π : Type) (proto : π) (fields : JObj) :
    fromJSON proto (getJSON (.jobj fields)) = some ⟨proto, fields⟩ := by
  unfold fromJSON jsonParse getJSON
  have hfuel : jNeed (.jobj fields) ≤ (emitVal (.jobj fields)).length + 1 :=
    jNeed_le_emit.1 _
  have h := (parse_emit ((emitVal (.jobj fields)).length + 1)).1
    (.jobj fields) [] hfuel rfl
  rw [List.append_nil] at h
  rw [show (String.mk (emitVal (.jobj fields))).data = emitVal (.jobj fields)
    from rfl]
  rw [show (String.mk (emitVal (.jobj fields))).data.length =
    (emitVal (.jobj fields)).length from rfl]
  rw [h]
